import Mathlib

/-!
# CAPT command/reply engine (`capt-command.c`, `capt-status.c`)

A shallow embedding of the frame buffer, the command framer, the transceiver
and the status decoder of the driver, followed by theorems about them.

Conventions of the embedding

* `capt_iobuf` is a total map from offsets to bytes; the C array has 65536
  cells, so only offsets below `capacity` denote cells of the array.
* `size_t` values are natural numbers. In `capt_copy_cmd` the sums are taken
  in the natural numbers, which is exact whenever the size passed is the size
  of an object in memory; `capt_copy_cmd_size_t` takes the same sums modulo
  2^w, as C does, and covers the call with a null payload and a size near
  `SIZE_MAX`, where the sum of the guard wraps.
* `capt_sendrecv` takes the receive call it makes as the parameter `recv`; the
  receive call of the source is `capt_recv_buf t fuel`.
* `exit(1)` is the result `Res.exit`, carrying the state at the exit; a loop
  that is still running when its step budget is used up yields `Res.running`,
  carrying the state reached.
* every transport call is appended to `Driver.trace`; what the transport
  answers is read from a `Transport` (the answer to the i-th write / read).
-/

namespace Capt

/-! ## word.h -/

/-- Modelled from the spec: the macro `LO` of `word.h` (the header is not part
of the sources): the low byte of a word ("opcode little-endian"). -/
def LO (x : Nat) : Nat := x % 256

/-- Modelled from the spec: the macro `HI` of `word.h` (the header is not part
of the sources): the second byte of a word ("opcode little-endian"). -/
def HI (x : Nat) : Nat := (x / 256) % 256

/-- Modelled from the spec: the macro `WORD` of `word.h` (the header is not
part of the sources): "a plain little-endian 16-bit integer". -/
def WORD (lo hi : Nat) : Nat := (lo + hi * 256) % 65536

/-- Modelled from the spec: the macro `BCD` of `word.h` (the header is not part
of the sources): the "decimal-digit-per-nibble (BCD) encoding" of two bytes,
least significant digit in the low nibble of the first byte. -/
def BCD (lo hi : Nat) : Nat :=
  lo % 16 + (lo / 16) % 16 * 10 + (hi % 16) * 100 + (hi / 16) % 16 * 1000

/-! ## State -/

/-- The type `cups_sc_status_t` of `<cups/sidechannel.h>`. -/
inductive cups_sc_status_t where
  | CUPS_SC_STATUS_NONE
  | CUPS_SC_STATUS_OK
  | CUPS_SC_STATUS_IO_ERROR
  | CUPS_SC_STATUS_TIMEOUT
  | CUPS_SC_STATUS_NO_RESPONSE
  | CUPS_SC_STATUS_BAD_MESSAGE
  | CUPS_SC_STATUS_TOO_BIG
  | CUPS_SC_STATUS_NOT_IMPLEMENTED
  deriving DecidableEq, Repr

open cups_sc_status_t

/-- One call into the environment, in the order the driver makes them. -/
inductive Event where
  /-- A call of `libusb_bulk_transfer` to the endpoint `ep` (0x01, host to device): the
  pointer passed is `capt_iobuf + offset`, the length passed is `length`, and
  `data` are the bytes of the buffer in that range. -/
  | bulk_write (ep offset length : Nat) (data : List Nat) (timeout : Nat)
  /-- A call of `libusb_bulk_transfer` from the endpoint `ep` (0x82, device to host) into
  `capt_iobuf + offset`, for at most `length` bytes. -/
  | bulk_read (ep offset length timeout : Nat)
  /-- A call of `sleep(seconds)`. -/
  | sleep (seconds : Nat)
  /-- A call of `usb_cleanup()`. -/
  | usb_cleanup
  /-- A call of `cupsBackChannelRead(NULL, bytes, 0.01)`. -/
  | back_channel_read (bytes : Nat)
  deriving DecidableEq, Repr

/-- What a bulk read can answer. -/
inductive ReadResult where
  /-- The code `LIBUSB_ERROR_TIMEOUT`. -/
  | timed_out
  /-- Any other negative return code. -/
  | failed
  /-- Return code 0 with these bytes stored and `size` set to their number. -/
  | data (bytes : List Nat)
  deriving DecidableEq, Repr

/-- The transport the driver talks to: the return code of the i-th bulk write
and the answer to the i-th bulk read (both counted from 0). -/
structure Transport where
  write_code : Nat → Int
  read_result : Nat → ReadResult

/-- The static variables of `capt-command.c`, the calls made so far and the
number of bulk writes and bulk reads made so far. -/
structure Driver where
  capt_iobuf : Nat → Nat
  capt_iosize : Nat
  last_send_status : cups_sc_status_t
  sendrecv_started : Bool
  trace : List Event
  n_write : Nat
  n_read : Nat

/-- The value of `sizeof(capt_iobuf)`. -/
def capacity : Nat := 0x10000

/-- The state at program start: static storage is zeroed, and the two flags
have their initialisers. -/
def Driver.init : Driver :=
  { capt_iobuf := fun _ => 0
    capt_iosize := 0
    last_send_status := CUPS_SC_STATUS_NONE
    sendrecv_started := false
    trace := []
    n_write := 0
    n_read := 0 }

/-- The reasons for which the driver calls `exit(1)`. -/
inductive Fatal where
  /-- Message "ALERT: bug in CAPT driver, output buffer overflow". -/
  | output_overflow
  /-- Message "ALERT: bug in CAPT driver, input buffer overflow". -/
  | input_overflow
  /-- Message "cannot send buffer". -/
  | cannot_send
  /-- Message "ERROR: CAPT: no reply from printer". -/
  | no_reply
  /-- Message "bad reply from printer, expected .. .. xx xx xx xx". -/
  | bad_reply_header
  /-- Message "bad reply from printer, expected size .. ..". -/
  | bad_reply_size
  deriving DecidableEq, Repr

/-- The result of running a function of the driver. -/
inductive Res (α : Type) where
  /-- The function returned. -/
  | ret (a : α)
  /-- The function called `exit(1)` in the state `d`. -/
  | exit (why : Fatal) (d : Driver)
  /-- The function was still running, in the state `d`, when the step budget
  was used up. -/
  | running (d : Driver)

/-! ## Memory helpers -/

/-- The store `b[i] = v` into an array of `uint8_t`. -/
def poke (b : Nat → Nat) (i v : Nat) : Nat → Nat :=
  fun j => if j = i then v % 256 else b j

/-- The call `memcpy(dst + off, src, n)`: cell `off + i` of the destination
receives cell `i` of the source, for `i < n`. -/
def memcpy (dst : Nat → Nat) (off : Nat) (src : Nat → Nat) (n : Nat) : Nat → Nat :=
  fun j => if off ≤ j ∧ j < off + n then src (j - off) else dst j

/-- The memory a pointer to the bytes `p` points to (cells past the end of
`p` are not part of the object; they read as 0 here). -/
def bytes_at (p : List Nat) : Nat → Nat := fun i => p.getD i 0

/-- The `len` bytes of `b` from offset `off` on. -/
def slice (b : Nat → Nat) (off len : Nat) : List Nat :=
  (List.range len).map (fun i => b (off + i))

/-! ## Command framer -/

/-- The function `capt_copy_cmd(cmd, buf, size)`; `buf = none` is the null
pointer. The sums are taken in the natural numbers; `capt_copy_cmd_size_t`
takes them modulo 2^w. -/
def capt_copy_cmd (cmd : Nat) (buf : Option (List Nat)) (size : Nat) (d : Driver) :
    Res Driver :=
  if d.capt_iosize + 4 + size > capacity then
    Res.exit Fatal.output_overflow d
  else
    let b0 := match buf with
      | some p => memcpy d.capt_iobuf (d.capt_iosize + 4) (bytes_at p) size
      | none => d.capt_iobuf
    let size := match buf with
      | some _ => size
      | none => 0
    let b1 := poke b0 (d.capt_iosize + 0) (LO cmd)
    let b2 := poke b1 (d.capt_iosize + 1) (HI cmd)
    let b3 := poke b2 (d.capt_iosize + 2) (LO (size + 4))
    let b4 := poke b3 (d.capt_iosize + 3) (HI (size + 4))
    Res.ret { d with capt_iobuf := b4, capt_iosize := d.capt_iosize + (size + 4) }

/-- The first statement of `capt_send`: `capt_iosize = 0`. -/
def reset (d : Driver) : Driver := { d with capt_iosize := 0 }

/-- The function `capt_multi_begin(cmd)`. -/
def capt_multi_begin (cmd : Nat) (d : Driver) : Driver :=
  let b0 := poke d.capt_iobuf 0 (LO cmd)
  let b1 := poke b0 1 (HI cmd)
  { d with capt_iobuf := b1, capt_iosize := 4 }

/-- The function `capt_multi_add(cmd, buf, size)`. -/
def capt_multi_add (cmd : Nat) (buf : Option (List Nat)) (size : Nat) (d : Driver) :
    Res Driver :=
  capt_copy_cmd cmd buf size d

/-- The two stores at the start of `capt_multi_send`, which finalise the
length field of the batch. -/
def finalize_batch_length (d : Driver) : Driver :=
  let b0 := poke d.capt_iobuf 2 (LO d.capt_iosize)
  let b1 := poke b0 3 (HI d.capt_iosize)
  { d with capt_iobuf := b1 }

/-- A batch: `capt_multi_add` for each command of the list, in order, stopping
at the first one that exits. -/
def multi_add_all : List (Nat × List Nat) → Driver → Res Driver
  | [], d => Res.ret d
  | (cmd, p) :: rest, d =>
    match capt_multi_add cmd (some p) p.length d with
    | Res.ret d1 => multi_add_all rest d1
    | Res.exit why e => Res.exit why e
    | Res.running e => Res.running e

/-! ## Transceiver: send path -/

/-- The `while (iosize)` loop of `capt_send_buf`, with the locals `iopos` (as an
offset into `capt_iobuf`) and `iosize`. The transfer is issued after the two
locals have been advanced, with the advanced values, as in the source. -/
def capt_send_buf_loop (t : Transport) : Nat → Nat → Nat → Driver → Res Driver
  | 0, _, _, d => Res.running d
  | fuel + 1, iopos, iosize, d =>
    if iosize = 0 then Res.ret d
    else
      let sendsize := if iosize > 4096 then 4096 else iosize
      let iopos := iopos + sendsize
      let iosize := iosize - sendsize
      let code_r := t.write_code d.n_write
      let d1 : Driver :=
        { d with
          trace := d.trace ++ [Event.bulk_write 0x01 iopos iosize (slice d.capt_iobuf iopos iosize) 1000]
          n_write := d.n_write + 1 }
      if code_r < 0 then
        Res.exit Fatal.cannot_send { d1 with trace := d1.trace ++ [Event.usb_cleanup] }
      else capt_send_buf_loop t fuel iopos iosize d1

/-- The function `capt_send_buf()`. Every iteration of its loop takes at least
one byte off `iosize`, so `capt_iosize + 1` steps are always enough. -/
def capt_send_buf (t : Transport) (d : Driver) : Res Driver :=
  capt_send_buf_loop t (d.capt_iosize + 1) 0 d.capt_iosize d

/-- The function `capt_send(cmd, buf, size)`. -/
def capt_send (t : Transport) (cmd : Nat) (buf : Option (List Nat)) (size : Nat)
    (d : Driver) : Res Driver :=
  match capt_copy_cmd cmd buf size (reset d) with
  | Res.ret d1 => capt_send_buf t d1
  | Res.exit why e => Res.exit why e
  | Res.running e => Res.running e

/-- The function `capt_multi_send()`. -/
def capt_multi_send (t : Transport) (d : Driver) : Res Driver :=
  capt_send_buf t (finalize_batch_length d)

/-! ## Transceiver: receive path -/

/-- The `while(1)` loop of `capt_recv_buf`, with the local `timeout`. The loop
body has three branches: a timeout sleeps, doubles `timeout` and continues; a
negative code exits; a successful read falls through to the end of the body,
and the body is run again. No branch leaves the loop, so the loop never yields
`Res.ret`. (A timeout is taken to store no bytes; `timeout` is an `int` in the
source and is doubled here without overflow.) -/
def capt_recv_buf_loop (t : Transport) (offset expected : Nat) :
    Nat → Nat → Driver → Res Driver
  | 0, _, d => Res.running d
  | fuel + 1, timeout, d =>
    let d1 : Driver :=
      { d with
        trace := d.trace ++ [Event.bulk_read 0x82 offset expected timeout]
        n_read := d.n_read + 1 }
    match t.read_result d.n_read with
    | ReadResult.timed_out =>
      capt_recv_buf_loop t offset expected fuel (timeout * 2)
        { d1 with trace := d1.trace ++ [Event.sleep 1] }
    | ReadResult.failed =>
      Res.exit Fatal.no_reply { d1 with trace := d1.trace ++ [Event.usb_cleanup] }
    | ReadResult.data bytes =>
      capt_recv_buf_loop t offset expected fuel timeout
        { d1 with capt_iobuf := memcpy d1.capt_iobuf offset (bytes_at bytes) bytes.length }

/-- The function `capt_recv_buf(offset, expected)`, run for at most `fuel`
iterations of its loop. The assignment `capt_iosize = offset + size` stands
after the loop, which nothing leaves. -/
def capt_recv_buf (t : Transport) (fuel : Nat) (offset expected : Nat) (d : Driver) :
    Res Driver :=
  if offset + expected > capacity then
    Res.exit Fatal.input_overflow { d with trace := d.trace ++ [Event.usb_cleanup] }
  else capt_recv_buf_loop t offset expected fuel 1000 d

/-- A receive call that is not the one of the source: it has the overflow guard
of `capt_recv_buf`, makes one successful read that stores `bytes`, and then
returns with `capt_iosize = offset + size`, the assignment that stands after
the loop in the source and is never reached there. `deliver offset expected`
are the bytes handed over for that request. It serves only as a second
receive call to compare with in `receive_overflow_guard`; no other statement
of this file depends on it. -/
def recv_returning (deliver : Nat → Nat → List Nat) (offset expected : Nat) (d : Driver) :
    Res Driver :=
  if offset + expected > capacity then
    Res.exit Fatal.input_overflow { d with trace := d.trace ++ [Event.usb_cleanup] }
  else
    let bytes := deliver offset expected
    Res.ret
      { d with
        capt_iobuf := memcpy d.capt_iobuf offset (bytes_at bytes) bytes.length
        capt_iosize := offset + bytes.length
        trace := d.trace ++ [Event.bulk_read 0x82 offset expected 1000]
        n_read := d.n_read + 1 }

/-- The `while (1)` loop of `capt_sendrecv` (the reassembly loop), for at most
`fuel` iterations; `recv` is the receive call it makes. -/
def reassemble (recv : Nat → Nat → Driver → Res Driver) : Nat → Driver → Res Driver
  | 0, d => Res.running d
  | fuel + 1, d =>
    if WORD (d.capt_iobuf 2) (d.capt_iobuf 3) = d.capt_iosize then Res.ret d
    else if BCD (d.capt_iobuf 2) (d.capt_iobuf 3) = d.capt_iosize then Res.ret d
    else if WORD (d.capt_iobuf 2) (d.capt_iobuf 3) > d.capt_iosize ∧ d.capt_iosize % 64 = 6 then
      match recv d.capt_iosize (WORD (d.capt_iobuf 2) (d.capt_iobuf 3) - d.capt_iosize) d with
      | Res.ret d1 => reassemble recv fuel d1
      | Res.exit why e => Res.exit why e
      | Res.running e => Res.running e
    else Res.exit Fatal.bad_reply_size d

/-- What `capt_sendrecv` hands back to its caller: the memory `reply` points to
and the cell `reply_size` points to (`none` for a null pointer). -/
structure Reply where
  reply : Option (Nat → Nat)
  reply_size : Option Nat

/-- The copy-out at the end of `capt_sendrecv`: the `if (reply)` block and the
`if (reply_size)` assignment. -/
def copy_reply (d : Driver) (r : Reply) : Reply :=
  let reply := match r.reply with
    | some mem =>
      let copysize := match r.reply_size with
        | some c => c
        | none => d.capt_iosize
      let copysize := if copysize > d.capt_iosize then d.capt_iosize else copysize
      some (memcpy mem 0 (fun i => d.capt_iobuf (4 + i)) copysize)
    | none => none
  let reply_size := match r.reply_size with
    | some _ => some d.capt_iosize
    | none => none
  { reply := reply, reply_size := reply_size }

/-- The function `capt_sendrecv(cmd, buf, size, reply, reply_size)`, with the
receive call `recv` it makes and at most `fuel` iterations of its loop. -/
def capt_sendrecv (t : Transport) (recv : Nat → Nat → Driver → Res Driver) (fuel : Nat)
    (cmd : Nat) (buf : Option (List Nat)) (size : Nat) (r : Reply) (d : Driver) :
    Res (Driver × Reply) :=
  let d0 : Driver := { d with sendrecv_started := true, last_send_status := CUPS_SC_STATUS_NONE }
  match capt_send t cmd buf size d0 with
  | Res.exit why e => Res.exit why e
  | Res.running e => Res.running e
  | Res.ret d1 =>
    match recv 0 6 d1 with
    | Res.exit why e => Res.exit why e
    | Res.running e => Res.running e
    | Res.ret d2 =>
      if d2.capt_iosize ≠ 6 ∨ WORD (d2.capt_iobuf 0) (d2.capt_iobuf 1) ≠ cmd then
        Res.exit Fatal.bad_reply_header d2
      else
        match reassemble recv fuel d2 with
        | Res.exit why e => Res.exit why e
        | Res.running e => Res.running e
        | Res.ret d3 =>
          Res.ret
            ({ d3 with sendrecv_started := false, last_send_status := CUPS_SC_STATUS_NONE },
              copy_reply d3 r)

/-! ## Status decoder -/

/-- Modelled from the spec: the `struct capt_status` of `capt-status.h` (the
header is not part of the sources): "seven generic status words, four
page-progress counters", with the field names `decode_status` assigns to. -/
@[ext]
structure capt_status where
  status : Fin 7 → Nat
  page_decoding : Nat
  page_printing : Nat
  page_out : Nat
  page_completed : Nat

/-- The store `status.status[i] = v`. -/
def capt_status.set (st : capt_status) (i : Fin 7) (v : Nat) : capt_status :=
  { st with status := fun j => if j = i then v else st.status j }

/-- The record `capt_init_status()` leaves in `status`: all zero. -/
def capt_init_status : capt_status :=
  { status := fun _ => 0
    page_decoding := 0
    page_printing := 0
    page_out := 0
    page_completed := 0 }

/-- The function `decode_status(s, size)` acting on the static `status`. -/
def decode_status (s : Nat → Nat) (size : Nat) (st : capt_status) : capt_status :=
  let st := st.set 0 (WORD (s 0) (s 1))
  if size ≤ 2 then st
  else
    let st := st.set 1 (WORD (s 8) (s 9))
    if size ≤ 10 then st
    else
      let st := st.set 2 (WORD (s 10) (s 11))
      let st := st.set 3 (WORD (s 12) (s 13))
      let st := { st with page_decoding := WORD (s 14) (s 15) }
      let st := { st with page_printing := WORD (s 16) (s 17) }
      let st := { st with page_out := WORD (s 18) (s 19) }
      let st := { st with page_completed := WORD (s 20) (s 21) }
      let st := st.set 4 (WORD (s 24) (s 25))
      let st := st.set 5 (WORD (s 30) (s 31))
      let st := st.set 6 (WORD (s 38) (s 39))
      st

/-! ## Wire layout of the spec -/

/-- The Command Unit of the spec's wire layout, "opcode:u16-LE, length:u16-LE,
payload:bytes where length = len(payload) + 4". It follows the spec's words,
to be compared with what `capt_copy_cmd` stores. -/
def frame (cmd : Nat) (p : List Nat) : List Nat :=
  [LO cmd, HI cmd, LO (p.length + 4), HI (p.length + 4)] ++ p

/-- The Command Units of a list of commands, concatenated in order. -/
def frames : List (Nat × List Nat) → List Nat
  | [] => []
  | (cmd, p) :: rest => frame cmd p ++ frames rest

/-- The cumulative size of the Command Units of a list of commands. -/
def frames_size : List (Nat × List Nat) → Nat
  | [] => 0
  | (_, p) :: rest => (p.length + 4) + frames_size rest

/-! ## Inputs used in examples -/

/-- A transport on which every write succeeds and every read times out. -/
def writes_ok : Transport :=
  { write_code := fun _ => 0
    read_result := fun _ => ReadResult.timed_out }

/-- A transport whose reads time out twice and then deliver the six bytes
34 12 06 00 00 00 on every later read. -/
def two_timeouts : Transport :=
  { write_code := fun _ => 0
    read_result := fun i =>
      if i < 2 then ReadResult.timed_out else ReadResult.data [0x34, 0x12, 0x06, 0x00, 0x00, 0x00] }

/-- A payload of `n` zero bytes. -/
def zeros (n : Nat) : List Nat := List.replicate n 0

/-- A reply of 10 bytes to the opcode 0x1234: the header 34 12 0A 00 and six
payload bytes. -/
def reply_10 : List Nat := [0x34, 0x12, 0x0A, 0x00, 0xB0, 0xB1, 0xB2, 0xB3, 0xB4, 0xB5]

/-! ## Results and their states -/

/-- The state of the driver a result ends in: the state returned, the state at
the exit, or the state reached when the budget was used up. -/
def Res.state {α : Type} (f : α → Driver) : Res α → Driver
  | Res.ret a => f a
  | Res.exit _ d => d
  | Res.running d => d

/-- A receive call that leaves the two transaction flags alone, however it
ends. -/
def keeps_flags (recv : Nat → Nat → Driver → Res Driver) : Prop :=
  ∀ (o e : Nat) (d : Driver),
    ((recv o e d).state id).sendrecv_started = d.sendrecv_started ∧
    ((recv o e d).state id).last_send_status = d.last_send_status

/-- The part of `capt_sendrecv` that follows the reassembly loop, as a function
of what the loop yields: the copy-out and the two closing assignments. -/
def finish (r : Reply) : Res Driver → Res (Driver × Reply)
  | Res.ret d3 =>
    Res.ret
      ({ d3 with sendrecv_started := false, last_send_status := CUPS_SC_STATUS_NONE },
        copy_reply d3 r)
  | Res.exit why e => Res.exit why e
  | Res.running e => Res.running e

/-- A reply to the opcode 0x1234 whose first byte is wrong (35 instead of 34). -/
def reply_wrong_opcode : List Nat := [0x35, 0x12, 0x06, 0x00, 0x00, 0x00]

/-! ## Cleanup controller -/

/-- The `while (bytes > 0)` loop of `capt_cleanup`, with the locals `bytes` and
`bs`; what `cupsBackChannelRead` reads is discarded. (`bytes` is a multiple of
`bs` throughout, so `bytes -= bs` never wraps.) -/
def drain_loop : Nat → Nat → Nat → Driver → Res Driver
  | 0, _, _, d => Res.running d
  | fuel + 1, bytes, bs, d =>
    if bytes > 0 then
      drain_loop fuel (bytes - bs) bs
        { d with trace := d.trace ++ [Event.back_channel_read bs] }
    else Res.ret d

/-- The function `capt_cleanup()`. Its drain loop makes 0x10000 / 64 = 1024
iterations, so 1025 steps are enough for it. -/
def capt_cleanup (t : Transport) (d : Driver) : Res Driver :=
  if d.sendrecv_started then
    match (if d.last_send_status ≠ CUPS_SC_STATUS_OK then capt_send_buf t d else Res.ret d) with
    | Res.exit why e => Res.exit why e
    | Res.running e => Res.running e
    | Res.ret d1 =>
      match (if d1.last_send_status = CUPS_SC_STATUS_OK then drain_loop 1025 0x10000 64 d1
        else Res.ret d1) with
      | Res.exit why e => Res.exit why e
      | Res.running e => Res.running e
      | Res.ret d2 => Res.ret { d2 with capt_iosize := 0, sendrecv_started := false }
  else Res.ret d

/-! ## Sequences of calls -/

/-- The calls the surrounding system makes into `capt-command.c`. -/
inductive Call where
  /-- The call `capt_send(cmd, buf, size)`. -/
  | send (cmd : Nat) (buf : Option (List Nat)) (size : Nat)
  /-- The call `capt_sendrecv(cmd, buf, size, reply, reply_size)`. -/
  | sendrecv (cmd : Nat) (buf : Option (List Nat)) (size : Nat) (r : Reply)
  /-- The call `capt_multi_begin(cmd)`. -/
  | multi_begin (cmd : Nat)
  /-- The call `capt_multi_add(cmd, buf, size)`. -/
  | multi_add (cmd : Nat) (buf : Option (List Nat)) (size : Nat)
  /-- The call `capt_multi_send()`. -/
  | multi_send
  /-- The call `capt_cleanup()`. -/
  | cleanup

/-- One call, on the state of the driver; `recv` is the receive call
`capt_sendrecv` makes and `fuel` its budget. -/
def Call.run (t : Transport) (recv : Nat → Nat → Driver → Res Driver) (fuel : Nat) :
    Call → Driver → Res Driver
  | Call.send cmd buf size, d => capt_send t cmd buf size d
  | Call.sendrecv cmd buf size r, d =>
    match capt_sendrecv t recv fuel cmd buf size r d with
    | Res.ret (d1, _) => Res.ret d1
    | Res.exit why e => Res.exit why e
    | Res.running e => Res.running e
  | Call.multi_begin cmd, d => Res.ret (capt_multi_begin cmd d)
  | Call.multi_add cmd buf size, d => capt_multi_add cmd buf size d
  | Call.multi_send, d => capt_multi_send t d
  | Call.cleanup, d => capt_cleanup t d

/-- The states of the driver that calls can lead to from the initial state:
the state a call returns, and also the state in which a call exits or is
interrupted while it is still running (where a cancellation may invoke
`capt_cleanup`). -/
inductive Reachable (t : Transport) (recv : Nat → Nat → Driver → Res Driver) : Driver → Prop where
  /-- The initial state. -/
  | init : Reachable t recv Driver.init
  /-- One more call, from a reachable state. -/
  | step (d : Driver) (c : Call) (fuel : Nat) :
    Reachable t recv d → Reachable t recv ((c.run t recv fuel d).state id)

/-- The state in which a transaction for the opcode 0x1234 is interrupted while
it waits for the reply header: the receive call of the source, on the
transport that times out twice and then delivers, after four iterations of
its loop. -/
def interrupted : Driver :=
  ((Call.sendrecv 0x1234 none 0 { reply := none, reply_size := none }).run two_timeouts
    (capt_recv_buf two_timeouts 4) 1025 Driver.init).state id

/-! ## Status queries -/

/-- The function `download_status(cmd)`, on the statics of `capt-command.c` and
the static `status`; `buf` is what the local array `buf` holds when the
function is entered (it is not initialised), `recv` and `fuel` are passed on
to `capt_sendrecv`. -/
def download_status (t : Transport) (recv : Nat → Nat → Driver → Res Driver) (fuel : Nat)
    (cmd : Nat) (buf : Nat → Nat) (w : Driver × capt_status) : Res (Driver × capt_status) :=
  match capt_sendrecv t recv fuel cmd none 0 { reply := some buf, reply_size := some 0x10000 }
      w.1 with
  | Res.ret (d1, out) =>
    Res.ret (d1,
      decode_status
        (match out.reply with
          | some mem => mem
          | none => buf)
        (match out.reply_size with
          | some size => size
          | none => 0x10000)
        w.2)
  | Res.exit why e => Res.exit why e
  | Res.running e => Res.running e

/-- The function `capt_get_status()`. The opcode `CAPT_CHKSTATUS` is a constant
of `capt-command.h`, which is not part of the sources; it is a parameter. -/
def capt_get_status (t : Transport) (recv : Nat → Nat → Driver → Res Driver) (fuel : Nat)
    (CAPT_CHKSTATUS : Nat) (buf : Nat → Nat) (w : Driver × capt_status) :
    Res (Driver × capt_status) :=
  download_status t recv fuel CAPT_CHKSTATUS buf w

/-! ## Mock transports -/

/-- A mock transport that holds a queue of chunks: every write succeeds, the
i-th read (from 0) is handed the i-th chunk, and a read made when the queue is
used up times out. -/
def mock (chunks : List (List Nat)) : Transport :=
  { write_code := fun _ => 0
    read_result := fun i =>
      match chunks.get? i with
      | some c => ReadResult.data c
      | none => ReadResult.timed_out }

/-- A mock transport that always has data: every write succeeds and every read
is handed the same bytes. -/
def always (bytes : List Nat) : Transport :=
  { write_code := fun _ => 0
    read_result := fun _ => ReadResult.data bytes }

/-- The reply `reply_10` as the two chunks of the end-to-end scenario: the
6-byte header 34 12 0A 00 B0 B1, then the remainder B2 B3 B4 B5. -/
def mock_10 : Transport := mock [reply_10.take 6, reply_10.drop 6]

/-- A complete reply of 6 bytes to the opcode 0x1234: its size field holds 6. -/
def reply_6 : List Nat := [0x34, 0x12, 0x06, 0x00, 0x00, 0x00]

/-- A reply header for the opcode 0x1234 whose size field is FF FF. -/
def header_max : List Nat := [0x34, 0x12, 0xFF, 0xFF, 0x00, 0x00]

/-- A reply of 6 bytes to the status opcode 0xE0A0 whose status word is 0. -/
def reply_ready : List Nat := [0xA0, 0xE0, 0x06, 0x00, 0x00, 0x00]

/-- A busy test for the examples: the status word 0 is not zero. -/
def busy_word (st : capt_status) : Bool := st.status 0 != 0

/-! ## Waiting for the printer -/

/-- The function `capt_wait_ready()`, for at most `fuel` iterations of its
loop. Every iteration calls `capt_get_status()`, which calls `capt_sendrecv`,
which calls `capt_recv_buf`: `f1` is the budget of the loop of `capt_recv_buf`
and `f2` the budget of the reassembly loop. The test
`FLAG(.., CAPT_FL_BUSY)` is the parameter `busy` and the opcode is the
parameter `CAPT_CHKSTATUS` (the macro and the constants are in headers that
are not part of the sources); `buf` is what the local array of
`download_status` holds when that function is entered. -/
def capt_wait_ready (t : Transport) (f1 f2 : Nat) (CAPT_CHKSTATUS : Nat)
    (busy : capt_status → Bool) (buf : Nat → Nat) :
    Nat → Driver × capt_status → Res (Driver × capt_status)
  | 0, w => Res.running w.1
  | fuel + 1, w =>
    match capt_get_status t (capt_recv_buf t f1) f2 CAPT_CHKSTATUS buf w with
    | Res.ret w1 =>
      if busy w1.2 then
        capt_wait_ready t f1 f2 CAPT_CHKSTATUS busy buf fuel
          ({ w1.1 with trace := w1.1.trace ++ [Event.sleep 1] }, w1.2)
      else Res.ret w1
    | Res.exit why e => Res.exit why e
    | Res.running e => Res.running e

/-! ## The command framer in the arithmetic of size_t -/

/-- The function `capt_copy_cmd(cmd, buf, size)` with the arithmetic of `size_t`
made explicit. `w` is the width of `size_t` in bits; the sum
`capt_iosize + 4 + size` of the guard, the sum `size + 4` of the length field
and the sum of `capt_iosize += size + 4` are taken modulo 2^w, as unsigned
sums are in C. Offsets into `capt_iobuf` are not reduced: a store at an offset
of 65536 or more is a store past the end of the array. -/
def capt_copy_cmd_size_t (w : Nat) (cmd : Nat) (buf : Option (List Nat)) (size : Nat)
    (d : Driver) : Res Driver :=
  if (d.capt_iosize + 4 + size) % 2 ^ w > capacity then
    Res.exit Fatal.output_overflow d
  else
    let b0 := match buf with
      | some p => memcpy d.capt_iobuf (d.capt_iosize + 4) (bytes_at p) size
      | none => d.capt_iobuf
    let size := match buf with
      | some _ => size
      | none => 0
    let b1 := poke b0 (d.capt_iosize + 0) (LO cmd)
    let b2 := poke b1 (d.capt_iosize + 1) (HI cmd)
    let b3 := poke b2 (d.capt_iosize + 2) (LO ((size + 4) % 2 ^ w))
    let b4 := poke b3 (d.capt_iosize + 3) (HI ((size + 4) % 2 ^ w))
    Res.ret
      { d with
        capt_iobuf := b4
        capt_iosize := (d.capt_iosize + (size + 4) % 2 ^ w) % 2 ^ w }

/-- The function `capt_multi_add(cmd, buf, size)` in the arithmetic of
`size_t`. -/
def capt_multi_add_size_t (w : Nat) (cmd : Nat) (buf : Option (List Nat)) (size : Nat)
    (d : Driver) : Res Driver :=
  capt_copy_cmd_size_t w cmd buf size d

/-- The state after `capt_send(0x1234, p, 65532)` with a payload `p` of 65532
zero bytes, from the initial state, on a transport whose writes succeed. -/
def full : Driver :=
  ((Call.send 0x1234 (some (zeros 65532)) 65532).run writes_ok (capt_recv_buf writes_ok 0) 0
    Driver.init).state id

/-! # Theorems -/

/-! ## Lemmas on bytes and memory -/

theorem zeros_length (n : Nat) : (zeros n).length = n := List.length_replicate n 0

theorem poke_same (b : Nat → Nat) (i v : Nat) : poke b i v i = v % 256 := by
  simp [poke]

theorem poke_other (b : Nat → Nat) (i v j : Nat) (h : j ≠ i) : poke b i v j = b j := by
  simp [poke, h]

theorem memcpy_inside (dst src : Nat → Nat) (off n j : Nat) (h1 : off ≤ j) (h2 : j < off + n) :
    memcpy dst off src n j = src (j - off) := by
  simp [memcpy, h1, h2]

theorem memcpy_outside (dst src : Nat → Nat) (off n j : Nat) (h : j < off ∨ off + n ≤ j) :
    memcpy dst off src n j = dst j := by
  unfold memcpy
  rw [if_neg]
  omega

theorem LO_lt (x : Nat) : LO x < 256 := by
  unfold LO; omega

theorem HI_lt (x : Nat) : HI x < 256 := by
  unfold HI; omega

theorem WORD_LO_HI (x : Nat) : WORD (LO x) (HI x) = x % 65536 := by
  unfold WORD LO HI; omega

theorem WORD_LO_HI_mod (x : Nat) : WORD (LO x % 256) (HI x % 256) = x % 65536 := by
  unfold WORD LO HI; omega

theorem slice_length (b : Nat → Nat) (off len : Nat) : (slice b off len).length = len := by
  simp [slice]

/-! ## Command framer: single command -/

/-- The state `capt_copy_cmd` returns when the guard lets it through. -/
theorem capt_copy_cmd_eq (cmd : Nat) (p : List Nat) (d : Driver)
    (h : d.capt_iosize + 4 + p.length ≤ capacity) :
    capt_copy_cmd cmd (some p) p.length d =
      Res.ret
        { d with
          capt_iobuf :=
            poke (poke (poke (poke
              (memcpy d.capt_iobuf (d.capt_iosize + 4) (bytes_at p) p.length)
              (d.capt_iosize + 0) (LO cmd)) (d.capt_iosize + 1) (HI cmd))
              (d.capt_iosize + 2) (LO (p.length + 4))) (d.capt_iosize + 3) (HI (p.length + 4))
          capt_iosize := d.capt_iosize + (p.length + 4) } := by
  unfold capt_copy_cmd
  rw [if_neg (by omega)]

/-- The state `capt_copy_cmd` returns when it does not exit, cell by cell. -/
theorem capt_copy_cmd_ret (cmd : Nat) (p : List Nat) (d : Driver)
    (h : d.capt_iosize + 4 + p.length ≤ capacity) :
    ∃ d1, capt_copy_cmd cmd (some p) p.length d = Res.ret d1 ∧
      d1.capt_iosize = d.capt_iosize + (p.length + 4) ∧
      d1.capt_iobuf d.capt_iosize = LO cmd ∧
      d1.capt_iobuf (d.capt_iosize + 1) = HI cmd ∧
      d1.capt_iobuf (d.capt_iosize + 2) = LO (p.length + 4) ∧
      d1.capt_iobuf (d.capt_iosize + 3) = HI (p.length + 4) ∧
      (∀ i, i < p.length → d1.capt_iobuf (d.capt_iosize + 4 + i) = p.getD i 0) ∧
      (∀ j, j < d.capt_iosize ∨ d.capt_iosize + 4 + p.length ≤ j →
        d1.capt_iobuf j = d.capt_iobuf j) ∧
      d1.last_send_status = d.last_send_status ∧
      d1.sendrecv_started = d.sendrecv_started ∧
      d1.trace = d.trace ∧ d1.n_write = d.n_write ∧ d1.n_read = d.n_read := by
  refine ⟨_, capt_copy_cmd_eq cmd p d h, ?_⟩
  · refine ⟨rfl, ?_, ?_, ?_, ?_, ?_, ?_, rfl, rfl, rfl, rfl, rfl⟩
    · simp [poke, LO, memcpy]
    · simp [poke, HI, memcpy]
    · simp [poke, LO, memcpy]
    · simp [poke, HI, memcpy]
    · intro i hi
      simp only [poke, memcpy, bytes_at]
      rw [if_neg (by omega), if_neg (by omega), if_neg (by omega), if_neg (by omega),
        if_pos (by omega)]
      congr 1
      omega
    · intro j hj
      simp only [poke, memcpy]
      rw [if_neg (by omega), if_neg (by omega), if_neg (by omega), if_neg (by omega),
        if_neg (by omega)]

/-- Claim C4. `capt_copy_cmd` exits with the output-buffer-overflow alert if and
only if `capt_iosize + 4 + len(p) > 65536`; it exits for no other reason, it
never keeps running, and at the exit the whole state (every byte of the frame
buffer and the cursor included) is the state it was called in. -/
theorem capt_copy_cmd_overflow_iff (cmd : Nat) (p : List Nat) (d : Driver) :
    (capt_copy_cmd cmd (some p) p.length d = Res.exit Fatal.output_overflow d ↔
      d.capt_iosize + 4 + p.length > 65536) ∧
    (∀ why e, capt_copy_cmd cmd (some p) p.length d = Res.exit why e →
      why = Fatal.output_overflow ∧ e = d ∧ d.capt_iosize + 4 + p.length > 65536) ∧
    (∀ e, capt_copy_cmd cmd (some p) p.length d ≠ Res.running e) ∧
    (¬ d.capt_iosize + 4 + p.length > 65536 →
      ∃ d1, capt_copy_cmd cmd (some p) p.length d = Res.ret d1) := by
  by_cases h : d.capt_iosize + 4 + p.length > 65536
  · have e : capt_copy_cmd cmd (some p) p.length d = Res.exit Fatal.output_overflow d := by
      unfold capt_copy_cmd capacity
      rw [if_pos h]
    refine ⟨⟨fun _ => h, fun _ => e⟩, ?_, ?_, fun h1 => absurd h h1⟩
    · intro why x hx
      rw [e] at hx
      cases hx
      exact ⟨rfl, rfl, h⟩
    · rw [e]; intro x hc; exact Res.noConfusion hc
  · obtain ⟨d1, e, -⟩ := capt_copy_cmd_ret cmd p d (by unfold capacity; omega)
    refine ⟨⟨fun hx => ?_, fun hx => absurd hx h⟩, ?_, ?_, fun _ => ⟨d1, e⟩⟩
    · rw [e] at hx; cases hx
    · intro why x hx
      rw [e] at hx; cases hx
    · rw [e]; intro x hc; exact Res.noConfusion hc

theorem slice_eq_of_cells (b : Nat → Nat) (off : Nat) (l : List Nat)
    (h : ∀ i, i < l.length → b (off + i) = l.getD i 0) : slice b off l.length = l := by
  apply List.ext_getElem
  · simp [slice]
  · intro i h1 h2
    simp only [slice, List.getElem_map, List.getElem_range]
    rw [h i h2, List.getD_eq_getElem l 0 h2]

/-- Claim C3, amended. For every 16-bit opcode and every payload of at most
65532 bytes, `capt_iosize = 0` followed by `capt_copy_cmd` returns with bytes
0-1 holding the opcode little-endian, bytes 4 .. 4+len(p)-1 equal to the
payload, the cursor at len(p) + 4, and bytes 2-3 decoding to (len(p) + 4) mod
65536: that is len(p) + 4 for len(p) <= 65531, and 0 for len(p) = 65532. -/
theorem capt_send_framing (cmd : Nat) (p : List Nat) (d : Driver)
    (hcmd : cmd < 65536) (hp : p.length ≤ 65532) :
    ∃ d1, capt_copy_cmd cmd (some p) p.length (reset d) = Res.ret d1 ∧
      d1.capt_iobuf 0 = cmd % 256 ∧ d1.capt_iobuf 1 = cmd / 256 ∧
      WORD (d1.capt_iobuf 0) (d1.capt_iobuf 1) = cmd ∧
      WORD (d1.capt_iobuf 2) (d1.capt_iobuf 3) = (p.length + 4) % 65536 ∧
      (p.length ≤ 65531 → WORD (d1.capt_iobuf 2) (d1.capt_iobuf 3) = p.length + 4) ∧
      (p.length = 65532 → WORD (d1.capt_iobuf 2) (d1.capt_iobuf 3) = 0) ∧
      slice d1.capt_iobuf 4 p.length = p ∧
      d1.capt_iosize = p.length + 4 := by
  obtain ⟨d1, e, hsz, h0, h1, h2, h3, hpay, -⟩ :=
    capt_copy_cmd_ret cmd p (reset d) (by simp only [reset, capacity]; omega)
  simp only [reset, Nat.zero_add] at hsz h0 h1 h2 h3 hpay
  have hw : WORD (d1.capt_iobuf 2) (d1.capt_iobuf 3) = (p.length + 4) % 65536 := by
    rw [h2, h3, WORD_LO_HI]
  refine ⟨d1, e, ?_, ?_, ?_, hw, ?_, ?_, ?_, hsz⟩
  · rw [h0]; rfl
  · rw [h1]; unfold HI; omega
  · rw [h0, h1, WORD_LO_HI]; omega
  · intro h; rw [hw]; omega
  · intro h; rw [hw]; omega
  · exact slice_eq_of_cells _ 4 p (fun i hi => by rw [show 4 + i = 0 + 4 + i by omega]; exact hpay i hi)

/-- Witness for `capt_send_framing`: opcode 0xA0A1 with the payload 1, 2, 3. -/
theorem capt_send_framing_witness :
    ∃ d1, capt_copy_cmd 0xA0A1 (some [1, 2, 3]) [1, 2, 3].length (reset Driver.init) = Res.ret d1 ∧
      d1.capt_iobuf 0 = 0xA0A1 % 256 ∧ d1.capt_iobuf 1 = 0xA0A1 / 256 ∧
      WORD (d1.capt_iobuf 0) (d1.capt_iobuf 1) = 0xA0A1 ∧
      WORD (d1.capt_iobuf 2) (d1.capt_iobuf 3) = ([1, 2, 3].length + 4) % 65536 ∧
      ([1, 2, 3].length ≤ 65531 → WORD (d1.capt_iobuf 2) (d1.capt_iobuf 3) = [1, 2, 3].length + 4) ∧
      ([1, 2, 3].length = 65532 → WORD (d1.capt_iobuf 2) (d1.capt_iobuf 3) = 0) ∧
      slice d1.capt_iobuf 4 [1, 2, 3].length = [1, 2, 3] ∧
      d1.capt_iosize = [1, 2, 3].length + 4 :=
  capt_send_framing 0xA0A1 [1, 2, 3] Driver.init (by decide) (by decide)

/-- Claim C3 as stated fails at a payload of 65532 bytes (the largest the
claim admits): the append succeeds, the cursor is 65536, and bytes 2-3 decode
to 0, not to len(p) + 4 = 65536. -/
theorem capt_send_framing_length_wraps :
    (0x1234 : Nat) < 65536 ∧ (zeros 65532).length ≤ 65532 ∧
    ∃ d1, capt_copy_cmd 0x1234 (some (zeros 65532)) (zeros 65532).length (reset Driver.init) =
        Res.ret d1 ∧
      d1.capt_iosize = 65536 ∧
      WORD (d1.capt_iobuf 2) (d1.capt_iobuf 3) = 0 ∧
      WORD (d1.capt_iobuf 2) (d1.capt_iobuf 3) ≠ (zeros 65532).length + 4 := by
  have hl : (zeros 65532).length = 65532 := zeros_length 65532
  refine ⟨by decide, le_of_eq hl, ?_⟩
  obtain ⟨d1, e, hsz, -, -, h2, h3, -⟩ :=
    capt_copy_cmd_ret 0x1234 (zeros 65532) (reset Driver.init)
      (by rw [hl]; decide)
  rw [hl] at hsz h2 h3
  have h2 : d1.capt_iobuf 2 = LO (65532 + 4) := h2
  have h3 : d1.capt_iobuf 3 = HI (65532 + 4) := h3
  refine ⟨d1, e, hsz, ?_, ?_⟩
  · rw [h2, h3, WORD_LO_HI]
  · rw [h2, h3, WORD_LO_HI, hl]; decide

/-! ## Send path -/

/-- With a budget above `iosize`, the send loop returns or exits on a failed
write; either way it leaves the frame buffer, the cursor, the two flags and
the read counter as they were. -/
theorem capt_send_buf_loop_frame (t : Transport) :
    ∀ (fuel iopos iosize : Nat) (d : Driver), iosize < fuel →
      ∃ d1, (capt_send_buf_loop t fuel iopos iosize d = Res.ret d1 ∨
          capt_send_buf_loop t fuel iopos iosize d = Res.exit Fatal.cannot_send d1) ∧
        d1.capt_iobuf = d.capt_iobuf ∧ d1.capt_iosize = d.capt_iosize ∧
        d1.last_send_status = d.last_send_status ∧
        d1.sendrecv_started = d.sendrecv_started ∧ d1.n_read = d.n_read := by
  intro fuel
  induction fuel with
  | zero => intro iopos iosize d h; omega
  | succ f ih =>
    intro iopos iosize d h
    unfold capt_send_buf_loop
    by_cases h0 : iosize = 0
    · rw [if_pos h0]
      exact ⟨d, Or.inl rfl, rfl, rfl, rfl, rfl, rfl⟩
    · rw [if_neg h0]
      by_cases hc : t.write_code d.n_write < 0
      · simp only [hc, if_true]
        exact ⟨_, Or.inr rfl, rfl, rfl, rfl, rfl, rfl⟩
      · simp only [hc, if_false]
        have hlt : iosize - (if iosize > 4096 then 4096 else iosize) < f := by
          split <;> omega
        obtain ⟨d1, hr, h1, h2, h3, h4, h5⟩ := ih _ _ _ hlt
        exact ⟨d1, hr, h1, h2, h3, h4, h5⟩

/-- When no write fails, the send loop returns. -/
theorem capt_send_buf_loop_returns (t : Transport) (hw : ∀ i, 0 ≤ t.write_code i) :
    ∀ (fuel iopos iosize : Nat) (d : Driver), iosize < fuel →
      ∃ d1, capt_send_buf_loop t fuel iopos iosize d = Res.ret d1 ∧
        d1.capt_iobuf = d.capt_iobuf ∧ d1.capt_iosize = d.capt_iosize ∧
        d1.last_send_status = d.last_send_status ∧
        d1.sendrecv_started = d.sendrecv_started ∧ d1.n_read = d.n_read := by
  intro fuel
  induction fuel with
  | zero => intro iopos iosize d h; omega
  | succ f ih =>
    intro iopos iosize d h
    unfold capt_send_buf_loop
    by_cases h0 : iosize = 0
    · rw [if_pos h0]
      exact ⟨d, rfl, rfl, rfl, rfl, rfl, rfl⟩
    · rw [if_neg h0]
      have hc : ¬ t.write_code d.n_write < 0 := by have := hw d.n_write; omega
      simp only [hc, if_false]
      have hlt : iosize - (if iosize > 4096 then 4096 else iosize) < f := by
        split <;> omega
      obtain ⟨d1, hr, h1, h2, h3, h4, h5⟩ := ih _ _ _ hlt
      exact ⟨d1, hr, h1, h2, h3, h4, h5⟩

/-- A buffer of 1 to 4096 bytes: the loop of `capt_send_buf` makes one
transfer, from the end of the data and of length 0. -/
theorem capt_send_buf_short (t : Transport) (d : Driver)
    (h1 : 0 < d.capt_iosize) (h2 : d.capt_iosize ≤ 4096) (hw : 0 ≤ t.write_code d.n_write) :
    capt_send_buf t d =
      Res.ret
        { d with
          trace := d.trace ++ [Event.bulk_write 0x01 d.capt_iosize 0 [] 1000]
          n_write := d.n_write + 1 } := by
  have hc : ¬ t.write_code d.n_write < 0 := by omega
  have hs : ¬ d.capt_iosize > 4096 := by omega
  have h0 : ¬ d.capt_iosize = 0 := by omega
  unfold capt_send_buf
  unfold capt_send_buf_loop
  rw [if_neg h0]
  simp only [hs, hc, if_false, Nat.sub_self, Nat.zero_add]
  obtain ⟨m, hm⟩ : ∃ m, d.capt_iosize = m + 1 := ⟨d.capt_iosize - 1, by omega⟩
  generalize d.capt_iosize = n at *
  subst hm
  unfold capt_send_buf_loop
  simp [slice]

/-- Claim C2, the code at the failing input: `capt_send(0x1234, NULL, 0)` from
the initial state, on a transport whose writes succeed, frames the four bytes
34 12 04 00 and returns after exactly one bulk transfer, which starts at
offset 4 and has length 0: no byte of the command is written. -/
theorem capt_send_sends_no_byte :
    ∃ d1, capt_send writes_ok 0x1234 none 0 Driver.init = Res.ret d1 ∧
      d1.capt_iosize = 4 ∧
      slice d1.capt_iobuf 0 4 = [0x34, 0x12, 0x04, 0x00] ∧
      d1.trace = [Event.bulk_write 0x01 4 0 [] 1000] :=
  ⟨_, rfl, rfl, by decide, by decide⟩

/-- A command of 5000 bytes (payload of 4996 bytes), on a transport whose
writes succeed: two transfers are made, the first of the 904 bytes from offset
4096 on, the second of 0 bytes at offset 5000; bytes 0 .. 4095 are in no
transfer. -/
theorem capt_send_skips_first_chunk :
    ∃ d1, capt_send writes_ok 0x1234 (some (zeros 4996)) 4996 Driver.init = Res.ret d1 ∧
      d1.capt_iosize = 5000 ∧
      d1.trace = [Event.bulk_write 0x01 4096 904 (slice d1.capt_iobuf 4096 904) 1000,
        Event.bulk_write 0x01 5000 0 [] 1000] :=
  ⟨_, rfl, rfl, rfl⟩

/-! ## Receive path: one receive call -/

/-- The loop of `capt_recv_buf` never yields a return, whatever the transport
answers and however long it runs. -/
theorem capt_recv_buf_loop_no_ret (t : Transport) (offset expected : Nat) :
    ∀ (fuel timeout : Nat) (d d1 : Driver),
      capt_recv_buf_loop t offset expected fuel timeout d ≠ Res.ret d1 := by
  intro fuel
  induction fuel with
  | zero =>
    intro timeout d d1 h
    unfold capt_recv_buf_loop at h
    exact Res.noConfusion h
  | succ f ih =>
    intro timeout d d1 h
    unfold capt_recv_buf_loop at h
    cases hr : t.read_result d.n_read with
    | timed_out =>
      rw [hr] at h
      exact ih _ _ _ h
    | failed =>
      rw [hr] at h
      exact Res.noConfusion h
    | data bytes =>
      rw [hr] at h
      exact ih _ _ _ h

/-- The loop of `capt_recv_buf` never changes the cursor. -/
theorem capt_recv_buf_loop_cursor (t : Transport) (offset expected : Nat) :
    ∀ (fuel timeout : Nat) (d : Driver),
      (∀ why e, capt_recv_buf_loop t offset expected fuel timeout d = Res.exit why e →
        e.capt_iosize = d.capt_iosize) ∧
      (∀ e, capt_recv_buf_loop t offset expected fuel timeout d = Res.running e →
        e.capt_iosize = d.capt_iosize) := by
  intro fuel
  induction fuel with
  | zero =>
    intro timeout d
    unfold capt_recv_buf_loop
    refine ⟨fun why e h => Res.noConfusion h, fun e h => ?_⟩
    cases h
    rfl
  | succ f ih =>
    intro timeout d
    unfold capt_recv_buf_loop
    cases hr : t.read_result d.n_read with
    | timed_out =>
      refine ⟨fun why e h => ?_, fun e h => ?_⟩
      · have h1 := (ih _ _).1 why e h
        exact h1
      · have h1 := (ih _ _).2 e h
        exact h1
    | failed =>
      refine ⟨fun why e h => ?_, fun e h => Res.noConfusion h⟩
      cases h
      rfl
    | data bytes =>
      refine ⟨fun why e h => ?_, fun e h => ?_⟩
      · have h1 := (ih _ _).1 why e h
        exact h1
      · have h1 := (ih _ _).2 e h
        exact h1

theorem capt_recv_buf_no_ret (t : Transport) (fuel offset expected : Nat)
    (d d1 : Driver) : capt_recv_buf t fuel offset expected d ≠ Res.ret d1 := by
  unfold capt_recv_buf
  split
  · exact fun hc => Res.noConfusion hc
  · exact capt_recv_buf_loop_no_ret t offset expected fuel 1000 d d1

/-- Claim C8, what the code does instead: `capt_recv_buf` never returns. For
every transport, every number of loop iterations, every offset and length and
every state, the call has either exited or is still in its loop, and the
cursor is still the one it was called with (never `offset + m`). -/
theorem capt_recv_buf_never_returns (t : Transport) (fuel offset expected : Nat) (d : Driver) :
    (∀ d1, capt_recv_buf t fuel offset expected d ≠ Res.ret d1) ∧
    (∀ why e, capt_recv_buf t fuel offset expected d = Res.exit why e →
      e.capt_iosize = d.capt_iosize) ∧
    (∀ e, capt_recv_buf t fuel offset expected d = Res.running e →
      e.capt_iosize = d.capt_iosize) := by
  unfold capt_recv_buf
  by_cases h : offset + expected > capacity
  · simp only [h, if_true]
    refine ⟨fun d1 hc => Res.noConfusion hc, fun why e he => ?_, fun e he => Res.noConfusion he⟩
    cases he
    rfl
  · simp only [h, if_false]
    exact ⟨fun d1 => capt_recv_buf_loop_no_ret t offset expected fuel 1000 d d1,
      (capt_recv_buf_loop_cursor t offset expected fuel 1000 d).1,
      (capt_recv_buf_loop_cursor t offset expected fuel 1000 d).2⟩

/-- With the receive call of the source, `capt_sendrecv` never returns: it
exits, or it is still inside a receive call when the budget of that call is
used up. -/
theorem capt_sendrecv_source_never_returns (t : Transport) (f1 f2 cmd : Nat)
    (buf : Option (List Nat)) (size : Nat) (r : Reply) (d : Driver) (x : Driver × Reply) :
    capt_sendrecv t (capt_recv_buf t f1) f2 cmd buf size r d ≠ Res.ret x := by
  intro h
  unfold capt_sendrecv at h
  simp only at h
  split at h
  · exact Res.noConfusion h
  · exact Res.noConfusion h
  · split at h
    · exact Res.noConfusion h
    · exact Res.noConfusion h
    · rename_i h2
      exact capt_recv_buf_no_ret t f1 0 6 _ _ h2

/-- The header read of the scenario "times out twice, then succeeds": after
the third read has delivered its six bytes the call is still in its loop with
the cursor at 0, and its fourth iteration issues a fourth read, with the
timeout 4000 again. -/
theorem capt_recv_buf_reads_again :
    ∃ e, capt_recv_buf two_timeouts 4 0 6 Driver.init = Res.running e ∧
      e.capt_iosize = 0 ∧
      slice e.capt_iobuf 0 6 = [0x34, 0x12, 0x06, 0x00, 0x00, 0x00] ∧
      e.trace =
        [Event.bulk_read 0x82 0 6 1000, Event.sleep 1,
         Event.bulk_read 0x82 0 6 2000, Event.sleep 1,
         Event.bulk_read 0x82 0 6 4000,
         Event.bulk_read 0x82 0 6 4000] :=
  ⟨_, rfl, rfl, by decide, by decide⟩

theorem WORD_lt (lo hi : Nat) : WORD lo hi < 65536 := by
  unfold WORD; omega

/-- The function `capt_send` returns whenever the command fits the buffer and
no write fails; it leaves the two flags and the read counter as they were. -/
theorem capt_send_returns (t : Transport) (hw : ∀ i, 0 ≤ t.write_code i) (cmd : Nat)
    (buf : Option (List Nat)) (size : Nat) (d : Driver) (h : 4 + size ≤ capacity) :
    ∃ d1, capt_send t cmd buf size d = Res.ret d1 ∧
      d1.last_send_status = d.last_send_status ∧
      d1.sendrecv_started = d.sendrecv_started ∧ d1.n_read = d.n_read := by
  unfold capt_send capt_copy_cmd
  rw [if_neg (by simp only [reset]; omega)]
  simp only
  unfold capt_send_buf
  obtain ⟨d1, e, -, -, h3, h4, h5⟩ :=
    capt_send_buf_loop_returns t hw _ 0 _ _ (Nat.lt_succ_self _)
  exact ⟨d1, e, h3, h4, h5⟩

theorem writes_ok_codes : ∀ i, 0 ≤ writes_ok.write_code i := fun _ => le_refl 0

/-! ## Reply copy -/

/-- The copy-out, cell by cell: with `reply` and `reply_size` both present and
`*reply_size = c`, the caller's memory receives the `min c T` cells of the
frame buffer from offset 4 on, where `T` is the cursor (so up to offset
`T + 3`), the rest of the caller's memory is untouched, and `T` is reported. -/
theorem copy_reply_cells (d : Driver) (mem : Nat → Nat) (c : Nat) :
    ∃ mem1, copy_reply d { reply := some mem, reply_size := some c } =
        { reply := some mem1, reply_size := some d.capt_iosize } ∧
      (∀ j, j < min c d.capt_iosize → mem1 j = d.capt_iobuf (4 + j)) ∧
      (∀ j, min c d.capt_iosize ≤ j → mem1 j = mem j) := by
  refine ⟨_, rfl, ?_, ?_⟩
  · intro j hj
    simp only [memcpy]
    rw [if_pos (by split <;> omega)]
    rfl
  · intro j hj
    simp only [memcpy]
    rw [if_neg (by split <;> omega)]

/-! ## Status decoder -/

/-- Claim C6, amended. Decoding a reply of at most 10 bytes sets `status[0]` to
the little-endian word of bytes 0-1 and leaves `status[2..6]` and the four
page counters at their prior values. If the size is at most 2, `status[1]`
keeps its prior value too; if the size is 3 to 10, `status[1]` is set to the
little-endian word of bytes 8-9. -/
theorem decode_status_short (s : Nat → Nat) (size : Nat) (st : capt_status)
    (h : size ≤ 10) :
    (decode_status s size st).status 0 = WORD (s 0) (s 1) ∧
    (∀ i : Fin 7, i ≠ 0 → i ≠ 1 → (decode_status s size st).status i = st.status i) ∧
    (decode_status s size st).page_decoding = st.page_decoding ∧
    (decode_status s size st).page_printing = st.page_printing ∧
    (decode_status s size st).page_out = st.page_out ∧
    (decode_status s size st).page_completed = st.page_completed ∧
    (size ≤ 2 → (decode_status s size st).status 1 = st.status 1) ∧
    (2 < size → (decode_status s size st).status 1 = WORD (s 8) (s 9)) := by
  unfold decode_status
  by_cases h2 : size ≤ 2
  · rw [if_pos h2]
    refine ⟨by simp [capt_status.set], ?_, rfl, rfl, rfl, rfl, ?_, fun hc => by omega⟩
    · intro i h0 h1
      simp [capt_status.set, h0]
    · intro _
      simp [capt_status.set]
  · rw [if_neg h2, if_pos h]
    refine ⟨by simp [capt_status.set], ?_, rfl, rfl, rfl, rfl, fun hc => absurd hc h2, ?_⟩
    · intro i h0 h1
      simp [capt_status.set, h0, h1]
    · intro _
      simp [capt_status.set]

/-- Witness for `decode_status_short`: a 2-byte reply decoded into the zeroed
record. -/
theorem decode_status_short_witness :
    (decode_status (fun _ => 7) 2 capt_init_status).status 0 = WORD 7 7 ∧
    (∀ i : Fin 7, i ≠ 0 → i ≠ 1 →
      (decode_status (fun _ => 7) 2 capt_init_status).status i = capt_init_status.status i) ∧
    (decode_status (fun _ => 7) 2 capt_init_status).page_decoding =
      capt_init_status.page_decoding ∧
    (decode_status (fun _ => 7) 2 capt_init_status).page_printing =
      capt_init_status.page_printing ∧
    (decode_status (fun _ => 7) 2 capt_init_status).page_out = capt_init_status.page_out ∧
    (decode_status (fun _ => 7) 2 capt_init_status).page_completed =
      capt_init_status.page_completed ∧
    (2 ≤ 2 → (decode_status (fun _ => 7) 2 capt_init_status).status 1 =
      capt_init_status.status 1) ∧
    (2 < 2 → (decode_status (fun _ => 7) 2 capt_init_status).status 1 = WORD 7 7) :=
  decode_status_short (fun _ => 7) 2 capt_init_status (by decide)

/-- Claim C6 as stated fails at a reply of 10 bytes: decoded into the zeroed
record, with byte 8 equal to 1 and all other bytes 0, it changes `status[1]`
from 0 to 1. -/
theorem decode_status_short_changes_status1 :
    (10 : Nat) ≤ 10 ∧
    capt_init_status.status 1 = 0 ∧
    (decode_status (fun i => if i = 8 then 1 else 0) 10 capt_init_status).status 1 = 1 ∧
    (decode_status (fun i => if i = 8 then 1 else 0) 10 capt_init_status).status 1 ≠
      capt_init_status.status 1 := by
  refine ⟨le_refl 10, rfl, by decide, by decide⟩

/-- Claim C7. Decoding a reply of at least 40 bytes yields the record whose
eleven fields are the little-endian words of the bytes at the fixed offsets
0, 8, 10, 12, 14, 16, 18, 20, 24, 30 and 38; the result is the same for any
prior record and any reply (of at least 40 bytes) that has the same bytes at
those 22 offsets. -/
theorem decode_status_full (s : Nat → Nat) (size : Nat) (st : capt_status)
    (h : 40 ≤ size) :
    (decode_status s size st).status 0 = WORD (s 0) (s 1) ∧
    (decode_status s size st).status 1 = WORD (s 8) (s 9) ∧
    (decode_status s size st).status 2 = WORD (s 10) (s 11) ∧
    (decode_status s size st).status 3 = WORD (s 12) (s 13) ∧
    (decode_status s size st).page_decoding = WORD (s 14) (s 15) ∧
    (decode_status s size st).page_printing = WORD (s 16) (s 17) ∧
    (decode_status s size st).page_out = WORD (s 18) (s 19) ∧
    (decode_status s size st).page_completed = WORD (s 20) (s 21) ∧
    (decode_status s size st).status 4 = WORD (s 24) (s 25) ∧
    (decode_status s size st).status 5 = WORD (s 30) (s 31) ∧
    (decode_status s size st).status 6 = WORD (s 38) (s 39) ∧
    (∀ (s2 : Nat → Nat) (size2 : Nat) (st2 : capt_status), 40 ≤ size2 →
      (∀ i ∈ [0, 1, 8, 9, 10, 11, 12, 13, 14, 15, 16, 17, 18, 19, 20, 21, 24, 25, 30, 31, 38, 39],
        s2 i = s i) →
      decode_status s2 size2 st2 = decode_status s size st) := by
  have key : ∀ (s : Nat → Nat) (size : Nat) (st : capt_status), 40 ≤ size →
      decode_status s size st =
        { status := fun i =>
            if i = 0 then WORD (s 0) (s 1) else if i = 1 then WORD (s 8) (s 9)
            else if i = 2 then WORD (s 10) (s 11) else if i = 3 then WORD (s 12) (s 13)
            else if i = 4 then WORD (s 24) (s 25) else if i = 5 then WORD (s 30) (s 31)
            else WORD (s 38) (s 39)
          page_decoding := WORD (s 14) (s 15)
          page_printing := WORD (s 16) (s 17)
          page_out := WORD (s 18) (s 19)
          page_completed := WORD (s 20) (s 21) } := by
    intro s size st h
    unfold decode_status
    rw [if_neg (by omega), if_neg (by omega)]
    ext i
    · fin_cases i <;> simp [capt_status.set]
    · rfl
    · rfl
    · rfl
    · rfl
  have e := key s size st h
  have indep : ∀ (s2 : Nat → Nat) (size2 : Nat) (st2 : capt_status), 40 ≤ size2 →
      (∀ i ∈ [0, 1, 8, 9, 10, 11, 12, 13, 14, 15, 16, 17, 18, 19, 20, 21, 24, 25, 30, 31, 38, 39],
        s2 i = s i) →
      decode_status s2 size2 st2 = decode_status s size st := by
    intro s2 size2 st2 h2 hs
    rw [e, key s2 size2 st2 h2]
    simp only [List.mem_cons, List.mem_singleton, List.not_mem_nil, or_false, forall_eq_or_imp,
      forall_eq] at hs
    obtain ⟨a0, a1, a8, a9, a10, a11, a12, a13, a14, a15, a16, a17, a18, a19, a20, a21, a24,
      a25, a30, a31, a38, a39⟩ := hs
    rw [a0, a1, a8, a9, a10, a11, a12, a13, a14, a15, a16, a17, a18, a19, a20, a21, a24, a25,
      a30, a31, a38, a39]
  refine ⟨?_, ?_, ?_, ?_, ?_, ?_, ?_, ?_, ?_, ?_, ?_, indep⟩
  all_goals (rw [e]; try rfl)

/-- Witness for `decode_status_full`: the 40-byte reply whose byte at offset i
is i, decoded into the zeroed record. -/
theorem decode_status_full_witness :
    (decode_status (fun i => i) 40 capt_init_status).status 0 = WORD 0 1 ∧
    (decode_status (fun i => i) 40 capt_init_status).page_out = WORD 18 19 ∧
    (decode_status (fun i => i) 40 capt_init_status).status 6 = WORD 38 39 := by
  have h := decode_status_full (fun i => i) 40 capt_init_status (by decide)
  exact ⟨h.1, h.2.2.2.2.2.2.1, h.2.2.2.2.2.2.2.2.2.2.1⟩

/-! ## Batches -/

theorem slice_append (b : Nat → Nat) (off m n : Nat) :
    slice b off (m + n) = slice b off m ++ slice b (off + m) n := by
  apply List.ext_getElem
  · simp [slice]
  · intro i h1 h2
    simp only [slice, List.getElem_map, List.getElem_range]
    by_cases hi : i < m
    · rw [List.getElem_append_left (by simpa [slice] using hi)]
      simp
    · rw [List.getElem_append_right (by simpa [slice] using hi)]
      simp only [List.length_map, List.length_range, List.getElem_map, List.getElem_range]
      congr 1
      omega

theorem slice_congr (b c : Nat → Nat) (off n : Nat)
    (h : ∀ i, i < n → b (off + i) = c (off + i)) : slice b off n = slice c off n := by
  apply List.ext_getElem
  · simp [slice]
  · intro i h1 h2
    simp only [slice, List.getElem_map, List.getElem_range]
    exact h i (by simpa [slice] using h1)

theorem frames_size_eq (cs : List (Nat × List Nat)) :
    frames_size cs = (cs.map (fun c => c.2.length + 4)).sum := by
  induction cs with
  | nil => rfl
  | cons c rest ih =>
    obtain ⟨cmd, p⟩ := c
    simp only [frames_size, List.map_cons, List.sum_cons, ih]

/-- What `capt_copy_cmd` stores from the cursor on is the Command Unit of the
wire layout. -/
theorem capt_copy_cmd_frame (cmd : Nat) (p : List Nat) (d : Driver)
    (h : d.capt_iosize + 4 + p.length ≤ capacity) :
    ∃ d1, capt_copy_cmd cmd (some p) p.length d = Res.ret d1 ∧
      d1.capt_iosize = d.capt_iosize + (p.length + 4) ∧
      slice d1.capt_iobuf d.capt_iosize (p.length + 4) = frame cmd p ∧
      (∀ j, j < d.capt_iosize → d1.capt_iobuf j = d.capt_iobuf j) := by
  obtain ⟨d1, e, hsz, h0, h1, h2, h3, hpay, hrest, -⟩ := capt_copy_cmd_ret cmd p d h
  refine ⟨d1, e, hsz, ?_, fun j hj => hrest j (Or.inl hj)⟩
  rw [show p.length + 4 = 4 + p.length by omega, slice_append]
  unfold frame
  congr 1
  · simp only [slice, List.range, List.range.loop, List.map, Nat.add_zero]
    rw [h0, h1, h2, h3]
  · exact slice_eq_of_cells _ _ p hpay

/-- A batch of `capt_multi_add` calls that all return: the cursor moves on by
the cumulative size of the Command Units, which lie one after the other from
the old cursor on; the bytes below the old cursor and the two flags are kept;
and every command of the batch fits the buffer after the old cursor. -/
theorem multi_add_all_layout :
    ∀ (cs : List (Nat × List Nat)) (d d1 : Driver), multi_add_all cs d = Res.ret d1 →
      d1.capt_iosize = d.capt_iosize + frames_size cs ∧
      slice d1.capt_iobuf d.capt_iosize (frames_size cs) = frames cs ∧
      (∀ j, j < d.capt_iosize → d1.capt_iobuf j = d.capt_iobuf j) ∧
      (∀ c ∈ cs, d.capt_iosize + 4 + c.2.length ≤ capacity) ∧
      d1.last_send_status = d.last_send_status ∧
      d1.sendrecv_started = d.sendrecv_started := by
  intro cs
  induction cs with
  | nil =>
    intro d d1 h
    simp only [multi_add_all, Res.ret.injEq] at h
    subst h
    exact ⟨rfl, rfl, fun _ _ => rfl, fun c hc => absurd hc (List.not_mem_nil c), rfl, rfl⟩
  | cons c rest ih =>
    obtain ⟨cmd, p⟩ := c
    intro d d1 h
    by_cases hg : d.capt_iosize + 4 + p.length ≤ capacity
    · obtain ⟨d2, e, hsz, hfr, hlow⟩ := capt_copy_cmd_frame cmd p d hg
      have e2 : capt_copy_cmd cmd (some p) p.length d = Res.ret d2 := e
      simp only [multi_add_all, capt_multi_add, e2] at h
      obtain ⟨isz, ifr, ilow, ifit, ig1, ig2⟩ := ih d2 d1 h
      have hd2 : ∃ d3, capt_copy_cmd cmd (some p) p.length d = Res.ret d3 ∧
          d3.last_send_status = d.last_send_status ∧
          d3.sendrecv_started = d.sendrecv_started :=
        ⟨_, capt_copy_cmd_eq cmd p d hg, rfl, rfl⟩
      obtain ⟨d3, e3, hf1, hf2⟩ := hd2
      rw [e2] at e3
      simp only [Res.ret.injEq] at e3
      subst e3
      refine ⟨?_, ?_, ?_, ?_, ig1.trans hf1, ig2.trans hf2⟩
      · simp only [frames_size]; omega
      · simp only [frames_size, frames]
        rw [slice_append, ← hsz, ifr]
        congr 1
        rw [← hfr]
        exact slice_congr _ _ _ _ (fun i hi => ilow _ (by omega))
      · intro j hj
        rw [ilow j (by omega), hlow j hj]
      · intro c hc
        rcases List.mem_cons.mp hc with rfl | hc
        · exact hg
        · have := ifit c hc
          omega
    · have e : capt_copy_cmd cmd (some p) p.length d = Res.exit Fatal.output_overflow d := by
        unfold capt_copy_cmd
        rw [if_pos (by omega)]
      simp only [multi_add_all, capt_multi_add, e] at h
      exact Res.noConfusion h

/-- Claim C9. After `capt_multi_begin(c0)` and any list of `capt_multi_add`
calls that all return, the cursor is 4 + sum(len(p_i) + 4), bytes 0-1 hold c0
little-endian, and the bytes from offset 4 to the cursor are the Command Units
[op lo, op hi, (len+4) lo, (len+4) hi, payload...] of the commands, in order;
each of these units is what appending that command alone to a reset buffer
leaves in bytes 0 .. len+3. -/
theorem batch_layout (c0 : Nat) (cs : List (Nat × List Nat)) (d d1 : Driver)
    (h : multi_add_all cs (capt_multi_begin c0 d) = Res.ret d1) :
    d1.capt_iosize = 4 + (cs.map (fun c => c.2.length + 4)).sum ∧
    d1.capt_iobuf 0 = LO c0 ∧ d1.capt_iobuf 1 = HI c0 ∧
    slice d1.capt_iobuf 4 (d1.capt_iosize - 4) = frames cs ∧
    (∀ c ∈ cs, ∃ e, capt_copy_cmd c.1 (some c.2) c.2.length (reset d) = Res.ret e ∧
      e.capt_iosize = c.2.length + 4 ∧
      slice e.capt_iobuf 0 e.capt_iosize = frame c.1 c.2) := by
  obtain ⟨hsz, hfr, hlow, hfit, -, -⟩ := multi_add_all_layout cs (capt_multi_begin c0 d) d1 h
  have hb : (capt_multi_begin c0 d).capt_iosize = 4 := rfl
  rw [hb] at hsz hfr hlow hfit
  refine ⟨?_, ?_, ?_, ?_, ?_⟩
  · rw [hsz, frames_size_eq]
  · rw [hlow 0 (by omega)]
    simp [capt_multi_begin, poke, LO]
  · rw [hlow 1 (by omega)]
    simp [capt_multi_begin, poke, HI]
  · rw [hsz, Nat.add_sub_cancel_left]
    exact hfr
  · intro c hc
    have hc4 := hfit c hc
    obtain ⟨e, he, hs, hf, -⟩ := capt_copy_cmd_frame c.1 c.2 (reset d)
      (by simp only [reset]; omega)
    simp only [reset, Nat.zero_add] at hs hf
    refine ⟨e, he, hs, ?_⟩
    rw [hs]
    exact hf

/-- Witness for `batch_layout`: the batch 0xD0A0 with the commands 0xD0A1
(payload 1, 2) and 0xD0A2 (empty payload). -/
theorem batch_layout_witness :
    ∃ d1, multi_add_all [(0xD0A1, [1, 2]), (0xD0A2, [])] (capt_multi_begin 0xD0A0 Driver.init) =
        Res.ret d1 ∧
      d1.capt_iosize = 14 ∧
      d1.capt_iobuf 0 = 0xA0 ∧ d1.capt_iobuf 1 = 0xD0 ∧
      slice d1.capt_iobuf 4 10 = [0xA1, 0xD0, 6, 0, 1, 2, 0xA2, 0xD0, 4, 0] := by
  obtain ⟨h1, h2, h3, h4, -⟩ :=
    batch_layout 0xD0A0 [(0xD0A1, [1, 2]), (0xD0A2, [])] Driver.init _ rfl
  exact ⟨_, rfl, h1, h2, h3, h4⟩

/-- The length finalisation stores the cursor modulo 65536 in bytes 2-3 and
touches nothing else. -/
theorem finalize_batch_length_spec (d : Driver) :
    WORD ((finalize_batch_length d).capt_iobuf 2) ((finalize_batch_length d).capt_iobuf 3) =
      d.capt_iosize % 65536 ∧
    (∀ j, j ≠ 2 → j ≠ 3 → (finalize_batch_length d).capt_iobuf j = d.capt_iobuf j) ∧
    (finalize_batch_length d).capt_iosize = d.capt_iosize ∧
    (finalize_batch_length d).last_send_status = d.last_send_status ∧
    (finalize_batch_length d).sendrecv_started = d.sendrecv_started := by
  refine ⟨?_, ?_, rfl, rfl, rfl⟩
  · have h2 : (finalize_batch_length d).capt_iobuf 2 = LO d.capt_iosize % 256 := by
      simp [finalize_batch_length, poke]
    have h3 : (finalize_batch_length d).capt_iobuf 3 = HI d.capt_iosize % 256 := by
      simp [finalize_batch_length, poke]
    rw [h2, h3, WORD_LO_HI_mod]
  · intro j h2 h3
    simp [finalize_batch_length, poke, h2, h3]

/-- Claim C10, amended. For every batch built by `capt_multi_begin` and
`capt_multi_add` calls that all return, the length finalisation of
`capt_multi_send` sets bytes 2-3 so that their little-endian value is the
cursor modulo 65536, which is the cumulative byte count 4 + sum(len(p_i) + 4)
itself whenever that count is at most 65535; it changes no other byte of the
buffer and not the cursor, and neither does the flush that follows, when it
returns. -/
theorem batch_length_finalised (c0 : Nat) (cs : List (Nat × List Nat)) (d d1 : Driver)
    (h : multi_add_all cs (capt_multi_begin c0 d) = Res.ret d1) :
    d1.capt_iosize = 4 + (cs.map (fun c => c.2.length + 4)).sum ∧
    WORD ((finalize_batch_length d1).capt_iobuf 2) ((finalize_batch_length d1).capt_iobuf 3) =
      d1.capt_iosize % 65536 ∧
    (d1.capt_iosize ≤ 65535 →
      WORD ((finalize_batch_length d1).capt_iobuf 2) ((finalize_batch_length d1).capt_iobuf 3) =
        d1.capt_iosize) ∧
    (∀ j, j ≠ 2 → j ≠ 3 → (finalize_batch_length d1).capt_iobuf j = d1.capt_iobuf j) ∧
    (finalize_batch_length d1).capt_iosize = d1.capt_iosize ∧
    (∀ t d2, capt_multi_send t d1 = Res.ret d2 →
      d2.capt_iobuf = (finalize_batch_length d1).capt_iobuf ∧
      d2.capt_iosize = d1.capt_iosize) := by
  obtain ⟨hsz, -⟩ := multi_add_all_layout cs (capt_multi_begin c0 d) d1 h
  obtain ⟨hw, hrest, hcur, -⟩ := finalize_batch_length_spec d1
  refine ⟨?_, hw, ?_, hrest, hcur, ?_⟩
  · rw [hsz, frames_size_eq]; rfl
  · intro hle
    rw [hw]; omega
  · intro t d2 h2
    unfold capt_multi_send capt_send_buf at h2
    obtain ⟨d3, hr, hb, hs, -⟩ :=
      capt_send_buf_loop_frame t ((finalize_batch_length d1).capt_iosize + 1) 0
        (finalize_batch_length d1).capt_iosize (finalize_batch_length d1) (Nat.lt_succ_self _)
    rcases hr with hr | hr
    · rw [hr] at h2
      simp only [Res.ret.injEq] at h2
      subst h2
      exact ⟨hb, hs.trans hcur⟩
    · rw [hr] at h2
      exact Res.noConfusion h2

/-- Witness for `batch_length_finalised`: the batch 0xD0A0 with the commands
0xD0A1 (payload 1, 2) and 0xD0A2 (empty payload); its 14 bytes give 0E 00. -/
theorem batch_length_finalised_witness :
    ∃ d1, multi_add_all [(0xD0A1, [1, 2]), (0xD0A2, [])] (capt_multi_begin 0xD0A0 Driver.init) =
        Res.ret d1 ∧
      d1.capt_iosize = 14 ∧
      WORD ((finalize_batch_length d1).capt_iobuf 2) ((finalize_batch_length d1).capt_iobuf 3) =
        14 := by
  obtain ⟨h1, -, h3, -⟩ :=
    batch_length_finalised 0xD0A0 [(0xD0A1, [1, 2]), (0xD0A2, [])] Driver.init _ rfl
  exact ⟨_, rfl, h1, h3 (by decide)⟩

theorem multi_add_all_single (cmd : Nat) (p : List Nat) (d d1 : Driver)
    (e : capt_copy_cmd cmd (some p) p.length d = Res.ret d1) :
    multi_add_all [(cmd, p)] d = Res.ret d1 := by
  simp only [multi_add_all, capt_multi_add, e]

/-- Claim C10 as stated fails for the batch 0xD0A0 with the one command 0xD0A1
whose payload has 65528 bytes: no call overflows, the cumulative byte count
(the cursor) is 65536, and the finalisation leaves 00 00 in bytes 2-3, which
decode to 0. -/
theorem batch_length_wraps :
    ∃ d1, multi_add_all [(0xD0A1, zeros 65528)] (capt_multi_begin 0xD0A0 Driver.init) =
        Res.ret d1 ∧
      d1.capt_iosize = 65536 ∧
      WORD ((finalize_batch_length d1).capt_iobuf 2) ((finalize_batch_length d1).capt_iobuf 3) =
        0 ∧
      WORD ((finalize_batch_length d1).capt_iobuf 2) ((finalize_batch_length d1).capt_iobuf 3) ≠
        d1.capt_iosize := by
  have hl : (zeros 65528).length = 65528 := zeros_length 65528
  obtain ⟨d1, e, hsz, -⟩ := capt_copy_cmd_frame 0xD0A1 (zeros 65528)
    (capt_multi_begin 0xD0A0 Driver.init)
    (by rw [hl]; decide)
  rw [hl] at hsz
  have hsz : d1.capt_iosize = 65536 := hsz
  have hw := (finalize_batch_length_spec d1).1
  rw [hsz] at hw
  refine ⟨d1, ?_, hsz, hw, ?_⟩
  · exact multi_add_all_single _ _ _ _ e
  · rw [hw, hsz]; decide

/-! ## Command framer: absent payload -/

/-- Claim C11, amended. Appending a command whose payload is absent
(`buf = NULL`), with a size argument that passes the guard (cursor + 4 + size
<= 65536; size 0 needs cursor + 4 <= 65536), copies no payload byte, stores the
opcode and the length field 4 (bytes 04 00, the header alone), moves the cursor
on by 4, and returns the very state that appending the same opcode with a
present payload of size 0 returns. -/
theorem capt_copy_cmd_absent (cmd size : Nat) (p : List Nat) (d : Driver)
    (h : d.capt_iosize + 4 + size ≤ 65536) :
    ∃ d1, capt_copy_cmd cmd none size d = Res.ret d1 ∧
      capt_copy_cmd cmd (some p) 0 d = Res.ret d1 ∧
      d1.capt_iosize = d.capt_iosize + 4 ∧
      d1.capt_iobuf d.capt_iosize = LO cmd ∧
      d1.capt_iobuf (d.capt_iosize + 1) = HI cmd ∧
      d1.capt_iobuf (d.capt_iosize + 2) = 4 ∧
      d1.capt_iobuf (d.capt_iosize + 3) = 0 ∧
      WORD (d1.capt_iobuf (d.capt_iosize + 2)) (d1.capt_iobuf (d.capt_iosize + 3)) = 4 ∧
      (∀ j, j < d.capt_iosize ∨ d.capt_iosize + 4 ≤ j → d1.capt_iobuf j = d.capt_iobuf j) := by
  have hm : memcpy d.capt_iobuf (d.capt_iosize + 4) (bytes_at p) 0 = d.capt_iobuf := by
    funext j
    unfold memcpy
    rw [if_neg (by omega)]
  refine ⟨{ d with
      capt_iobuf :=
        poke (poke (poke (poke d.capt_iobuf (d.capt_iosize + 0) (LO cmd))
          (d.capt_iosize + 1) (HI cmd)) (d.capt_iosize + 2) (LO (0 + 4)))
          (d.capt_iosize + 3) (HI (0 + 4))
      capt_iosize := d.capt_iosize + (0 + 4) }, ?_, ?_, rfl, ?_, ?_, ?_, ?_, ?_, ?_⟩
  · unfold capt_copy_cmd capacity
    rw [if_neg (by omega)]
  · unfold capt_copy_cmd capacity
    rw [if_neg (by omega)]
    simp only [hm]
  · simp [poke, LO]
  · simp [poke, HI]
  · simp [poke, LO]
  · simp [poke, HI]
  · simp [poke, LO, HI, WORD]
  · intro j hj
    simp only [poke]
    rw [if_neg (by omega), if_neg (by omega), if_neg (by omega), if_neg (by omega)]

/-- Witness for `capt_copy_cmd_absent`: opcode 0xA0A1, null payload with size 0,
at cursor 0. -/
theorem capt_copy_cmd_absent_witness :
    ∃ d1, capt_copy_cmd 0xA0A1 none 0 Driver.init = Res.ret d1 ∧
      capt_copy_cmd 0xA0A1 (some []) 0 Driver.init = Res.ret d1 ∧
      d1.capt_iosize = 4 ∧
      slice d1.capt_iobuf 0 4 = [0xA1, 0xA0, 0x04, 0x00] := by
  obtain ⟨d1, e1, e2, hs, h0, h1, h2, h3, -⟩ :=
    capt_copy_cmd_absent 0xA0A1 0 [] Driver.init (by decide)
  refine ⟨d1, e1, e2, hs, ?_⟩
  have h0 : d1.capt_iobuf 0 = LO 0xA0A1 := h0
  have h1 : d1.capt_iobuf 1 = HI 0xA0A1 := h1
  have h2 : d1.capt_iobuf 2 = 4 := h2
  have h3 : d1.capt_iobuf 3 = 0 := h3
  simp only [slice, List.range, List.range.loop, List.map, Nat.zero_add]
  rw [h0, h1, h2, h3]
  rfl

/-- Claim C11 as stated fails for the opcode 0x1234 at cursor 0: with the
payload absent (and the size argument 0) the length field, bytes 2-3 of the
command unit, holds 04 00 and decodes to 4, not to 0. -/
theorem capt_copy_cmd_absent_length_is_4 :
    (reset Driver.init).capt_iosize + 4 ≤ 65536 ∧
    ∃ d1, capt_copy_cmd 0x1234 none 0 (reset Driver.init) = Res.ret d1 ∧
      slice d1.capt_iobuf 0 4 = [0x34, 0x12, 0x04, 0x00] ∧
      WORD (d1.capt_iobuf 2) (d1.capt_iobuf 3) = 4 ∧
      WORD (d1.capt_iobuf 2) (d1.capt_iobuf 3) ≠ 0 :=
  ⟨by decide, _, rfl, by decide, by decide, by decide⟩

/-! ## Transaction: after the header receive, and the flags -/

/-- Once the command is sent and the header receive has returned, a header that
passes the check hands over to the reassembly loop and to the copy-out; one
that does not, exits. -/
theorem capt_sendrecv_after_header (t : Transport) (recv : Nat → Nat → Driver → Res Driver)
    (fuel cmd : Nat) (buf : Option (List Nat)) (size : Nat) (r : Reply) (d d1 d2 : Driver)
    (hs : capt_send t cmd buf size
      { d with sendrecv_started := true, last_send_status := CUPS_SC_STATUS_NONE } = Res.ret d1)
    (hr : recv 0 6 d1 = Res.ret d2) :
    capt_sendrecv t recv fuel cmd buf size r d =
      if d2.capt_iosize ≠ 6 ∨ WORD (d2.capt_iobuf 0) (d2.capt_iobuf 1) ≠ cmd then
        Res.exit Fatal.bad_reply_header d2
      else finish r (reassemble recv fuel d2) := by
  unfold capt_sendrecv
  simp only [hs, hr]
  split
  · rfl
  · unfold finish
    split <;> simp_all

/-- The function `capt_copy_cmd` leaves the two flags alone, however it ends. -/
theorem capt_copy_cmd_flags (cmd : Nat) (buf : Option (List Nat)) (size : Nat) (d : Driver) :
    ((capt_copy_cmd cmd buf size d).state id).sendrecv_started = d.sendrecv_started ∧
    ((capt_copy_cmd cmd buf size d).state id).last_send_status = d.last_send_status := by
  unfold capt_copy_cmd
  split <;> exact ⟨rfl, rfl⟩

/-- The function `capt_send_buf` leaves the two flags, the frame buffer and the
cursor alone, however it ends. -/
theorem capt_send_buf_flags (t : Transport) (d : Driver) :
    ((capt_send_buf t d).state id).sendrecv_started = d.sendrecv_started ∧
    ((capt_send_buf t d).state id).last_send_status = d.last_send_status ∧
    ((capt_send_buf t d).state id).capt_iosize = d.capt_iosize ∧
    ((capt_send_buf t d).state id).capt_iobuf = d.capt_iobuf := by
  unfold capt_send_buf
  obtain ⟨d1, hr, hb, hs, h3, h4, -⟩ :=
    capt_send_buf_loop_frame t (d.capt_iosize + 1) 0 d.capt_iosize d (Nat.lt_succ_self _)
  rcases hr with hr | hr <;> rw [hr] <;> exact ⟨h4, h3, hs, hb⟩

/-- The function `capt_send` leaves the two flags alone, however it ends. -/
theorem capt_send_flags (t : Transport) (cmd : Nat) (buf : Option (List Nat)) (size : Nat)
    (d : Driver) :
    ((capt_send t cmd buf size d).state id).sendrecv_started = d.sendrecv_started ∧
    ((capt_send t cmd buf size d).state id).last_send_status = d.last_send_status := by
  have hc := capt_copy_cmd_flags cmd buf size (reset d)
  unfold capt_send
  cases hcc : capt_copy_cmd cmd buf size (reset d) with
  | ret d1 =>
    rw [hcc] at hc
    have hb := capt_send_buf_flags t d1
    exact ⟨hb.1.trans hc.1, hb.2.1.trans hc.2⟩
  | exit why e =>
    rw [hcc] at hc
    exact hc
  | running e =>
    rw [hcc] at hc
    exact hc

/-- The reassembly loop leaves the two flags alone, however it ends, when the
receive call does. -/
theorem reassemble_flags (recv : Nat → Nat → Driver → Res Driver) (hk : keeps_flags recv) :
    ∀ (fuel : Nat) (d : Driver),
      ((reassemble recv fuel d).state id).sendrecv_started = d.sendrecv_started ∧
      ((reassemble recv fuel d).state id).last_send_status = d.last_send_status := by
  intro fuel
  induction fuel with
  | zero => intro d; exact ⟨rfl, rfl⟩
  | succ f ih =>
    intro d
    unfold reassemble
    split
    · exact ⟨rfl, rfl⟩
    · split
      · exact ⟨rfl, rfl⟩
      · split
        · have hr := hk d.capt_iosize
            (WORD (d.capt_iobuf 2) (d.capt_iobuf 3) - d.capt_iosize) d
          cases hrr : recv d.capt_iosize
              (WORD (d.capt_iobuf 2) (d.capt_iobuf 3) - d.capt_iosize) d with
          | ret d1 =>
            rw [hrr] at hr
            have h1 := ih d1
            exact ⟨h1.1.trans hr.1, h1.2.trans hr.2⟩
          | exit why e =>
            rw [hrr] at hr
            exact hr
          | running e =>
            rw [hrr] at hr
            exact hr
        · exact ⟨rfl, rfl⟩

/-- The loop of `capt_recv_buf` leaves the two flags alone, however it ends. -/
theorem capt_recv_buf_loop_flags (t : Transport) (offset expected : Nat) :
    ∀ (fuel timeout : Nat) (d : Driver),
      ((capt_recv_buf_loop t offset expected fuel timeout d).state id).sendrecv_started =
        d.sendrecv_started ∧
      ((capt_recv_buf_loop t offset expected fuel timeout d).state id).last_send_status =
        d.last_send_status := by
  intro fuel
  induction fuel with
  | zero => intro timeout d; exact ⟨rfl, rfl⟩
  | succ f ih =>
    intro timeout d
    unfold capt_recv_buf_loop
    cases hr : t.read_result d.n_read with
    | timed_out =>
      have h1 := ih (timeout * 2)
        { d with
          trace := d.trace ++ [Event.bulk_read 0x82 offset expected timeout] ++ [Event.sleep 1]
          n_read := d.n_read + 1 }
      exact h1
    | failed => exact ⟨rfl, rfl⟩
    | data bytes =>
      have h1 := ih timeout
        { d with
          capt_iobuf := memcpy d.capt_iobuf offset (bytes_at bytes) bytes.length
          trace := d.trace ++ [Event.bulk_read 0x82 offset expected timeout]
          n_read := d.n_read + 1 }
      exact h1

/-- The receive call of the source leaves the two flags alone. -/
theorem keeps_flags_capt_recv_buf (t : Transport) (fuel : Nat) :
    keeps_flags (capt_recv_buf t fuel) := by
  intro o e d
  unfold capt_recv_buf
  split
  · exact ⟨rfl, rfl⟩
  · exact capt_recv_buf_loop_flags t o e fuel 1000 d

/-- The two flags at the end of `capt_sendrecv`, for a receive call that leaves
them alone: `last_send_status` is `CUPS_SC_STATUS_NONE` however the call ends;
`sendrecv_started` is false when the call has returned, and true when it has
exited or is still running. -/
theorem capt_sendrecv_flags (t : Transport) (recv : Nat → Nat → Driver → Res Driver)
    (hk : keeps_flags recv) (fuel cmd : Nat) (buf : Option (List Nat)) (size : Nat)
    (r : Reply) (d : Driver) :
    (∀ d3 out, capt_sendrecv t recv fuel cmd buf size r d = Res.ret (d3, out) →
      d3.sendrecv_started = false ∧ d3.last_send_status = CUPS_SC_STATUS_NONE) ∧
    (∀ why e, capt_sendrecv t recv fuel cmd buf size r d = Res.exit why e →
      e.sendrecv_started = true ∧ e.last_send_status = CUPS_SC_STATUS_NONE) ∧
    (∀ e, capt_sendrecv t recv fuel cmd buf size r d = Res.running e →
      e.sendrecv_started = true ∧ e.last_send_status = CUPS_SC_STATUS_NONE) := by
  have hsend := capt_send_flags t cmd buf size
    { d with sendrecv_started := true, last_send_status := CUPS_SC_STATUS_NONE }
  cases hs : capt_send t cmd buf size
      { d with sendrecv_started := true, last_send_status := CUPS_SC_STATUS_NONE } with
  | exit why e =>
    rw [hs] at hsend
    have e1 : capt_sendrecv t recv fuel cmd buf size r d = Res.exit why e := by
      unfold capt_sendrecv; simp only [hs]
    rw [e1]
    refine ⟨fun _ _ h => Res.noConfusion h, fun why' e' h => ?_, fun _ h => Res.noConfusion h⟩
    cases h
    exact hsend
  | running e =>
    rw [hs] at hsend
    have e1 : capt_sendrecv t recv fuel cmd buf size r d = Res.running e := by
      unfold capt_sendrecv; simp only [hs]
    rw [e1]
    refine ⟨fun _ _ h => Res.noConfusion h, fun _ _ h => Res.noConfusion h, fun e' h => ?_⟩
    cases h
    exact hsend
  | ret d1 =>
    rw [hs] at hsend
    have hrecv := hk 0 6 d1
    cases hr : recv 0 6 d1 with
    | exit why e =>
      rw [hr] at hrecv
      have e1 : capt_sendrecv t recv fuel cmd buf size r d = Res.exit why e := by
        unfold capt_sendrecv; simp only [hs, hr]
      rw [e1]
      refine ⟨fun _ _ h => Res.noConfusion h, fun why' e' h => ?_, fun _ h => Res.noConfusion h⟩
      cases h
      exact ⟨hrecv.1.trans hsend.1, hrecv.2.trans hsend.2⟩
    | running e =>
      rw [hr] at hrecv
      have e1 : capt_sendrecv t recv fuel cmd buf size r d = Res.running e := by
        unfold capt_sendrecv; simp only [hs, hr]
      rw [e1]
      refine ⟨fun _ _ h => Res.noConfusion h, fun _ _ h => Res.noConfusion h, fun e' h => ?_⟩
      cases h
      exact ⟨hrecv.1.trans hsend.1, hrecv.2.trans hsend.2⟩
    | ret d2 =>
      rw [hr] at hrecv
      have h2 : d2.sendrecv_started = true ∧ d2.last_send_status = CUPS_SC_STATUS_NONE :=
        ⟨hrecv.1.trans hsend.1, hrecv.2.trans hsend.2⟩
      rw [capt_sendrecv_after_header t recv fuel cmd buf size r d d1 d2 hs hr]
      split
      · refine ⟨fun _ _ h => Res.noConfusion h, fun why' e' h => ?_, fun _ h => Res.noConfusion h⟩
        cases h
        exact h2
      · have hl := reassemble_flags recv hk fuel d2
        cases hre : reassemble recv fuel d2 with
        | ret d3 =>
          refine ⟨fun d3' out h => ?_, fun _ _ h => Res.noConfusion h,
            fun _ h => Res.noConfusion h⟩
          simp only [finish, Res.ret.injEq, Prod.mk.injEq] at h
          rw [← h.1]
          exact ⟨rfl, rfl⟩
        | exit why e =>
          rw [hre] at hl
          refine ⟨fun _ _ h => Res.noConfusion h, fun why' e' h => ?_,
            fun _ h => Res.noConfusion h⟩
          simp only [finish, Res.exit.injEq] at h
          rw [← h.2]
          exact ⟨hl.1.trans h2.1, hl.2.trans h2.2⟩
        | running e =>
          rw [hre] at hl
          refine ⟨fun _ _ h => Res.noConfusion h, fun _ _ h => Res.noConfusion h,
            fun e' h => ?_⟩
          simp only [finish, Res.running.injEq] at h
          rw [← h]
          exact ⟨hl.1.trans h2.1, hl.2.trans h2.2⟩

/-! ## Reassembly: one iteration, and the overflow guard -/

/-- Claim C17. One iteration of the reassembly loop, with n the cursor, W the
little-endian word and D the BCD value of bytes 2-3: (1) if W = n or D = n the
loop returns in the state it is in (reply complete); (2) otherwise, if
n mod 64 = 6 and W > n, it makes one receive call for W - n bytes at offset n
and, when that call returns, evaluates again from the state returned (an exit
of the call is passed on); (3) otherwise it exits with the bad-reply-size
error in the state it is in. The three conditions exclude each other and
cover every case. -/
theorem reassemble_step (recv : Nat → Nat → Driver → Res Driver) (fuel : Nat) (d : Driver) :
    (WORD (d.capt_iobuf 2) (d.capt_iobuf 3) = d.capt_iosize ∨
        BCD (d.capt_iobuf 2) (d.capt_iobuf 3) = d.capt_iosize →
      reassemble recv (fuel + 1) d = Res.ret d) ∧
    (¬ (WORD (d.capt_iobuf 2) (d.capt_iobuf 3) = d.capt_iosize ∨
        BCD (d.capt_iobuf 2) (d.capt_iobuf 3) = d.capt_iosize) →
      d.capt_iosize % 64 = 6 ∧ WORD (d.capt_iobuf 2) (d.capt_iobuf 3) > d.capt_iosize →
      reassemble recv (fuel + 1) d =
        match recv d.capt_iosize (WORD (d.capt_iobuf 2) (d.capt_iobuf 3) - d.capt_iosize) d with
        | Res.ret d1 => reassemble recv fuel d1
        | Res.exit why e => Res.exit why e
        | Res.running e => Res.running e) ∧
    (¬ (WORD (d.capt_iobuf 2) (d.capt_iobuf 3) = d.capt_iosize ∨
        BCD (d.capt_iobuf 2) (d.capt_iobuf 3) = d.capt_iosize) →
      ¬ (d.capt_iosize % 64 = 6 ∧ WORD (d.capt_iobuf 2) (d.capt_iobuf 3) > d.capt_iosize) →
      reassemble recv (fuel + 1) d = Res.exit Fatal.bad_reply_size d) := by
  refine ⟨fun h => ?_, fun h1 h2 => ?_, fun h1 h2 => ?_⟩
  · unfold reassemble
    by_cases hW : WORD (d.capt_iobuf 2) (d.capt_iobuf 3) = d.capt_iosize
    · rw [if_pos hW]
    · rw [if_neg hW, if_pos (h.resolve_left hW)]
  · have hW : ¬ WORD (d.capt_iobuf 2) (d.capt_iobuf 3) = d.capt_iosize := fun h => h1 (Or.inl h)
    have hD : ¬ BCD (d.capt_iobuf 2) (d.capt_iobuf 3) = d.capt_iosize := fun h => h1 (Or.inr h)
    conv => lhs; unfold reassemble
    rw [if_neg hW, if_neg hD, if_pos ⟨h2.2, h2.1⟩]
  · have hW : ¬ WORD (d.capt_iobuf 2) (d.capt_iobuf 3) = d.capt_iosize := fun h => h1 (Or.inl h)
    have hD : ¬ BCD (d.capt_iobuf 2) (d.capt_iobuf 3) = d.capt_iosize := fun h => h1 (Or.inr h)
    unfold reassemble
    rw [if_neg hW, if_neg hD, if_neg (fun h => h2 ⟨h.2, h.1⟩)]

/-- The loop of `capt_recv_buf` exits for one reason only, a failed read, and it
only ever adds to the trace. -/
theorem capt_recv_buf_loop_exit (t : Transport) (offset expected : Nat) :
    ∀ (fuel timeout : Nat) (d : Driver),
      (∀ why x, capt_recv_buf_loop t offset expected fuel timeout d = Res.exit why x →
        why = Fatal.no_reply) ∧
      (∃ rest, ((capt_recv_buf_loop t offset expected fuel timeout d).state id).trace =
        d.trace ++ rest) := by
  intro fuel
  induction fuel with
  | zero =>
    intro timeout d
    exact ⟨fun why x h => Res.noConfusion h, [], (List.append_nil _).symm⟩
  | succ f ih =>
    intro timeout d
    unfold capt_recv_buf_loop
    cases hr : t.read_result d.n_read with
    | timed_out =>
      obtain ⟨h1, rest, h2⟩ := ih (timeout * 2)
        { d with
          trace := d.trace ++ [Event.bulk_read 0x82 offset expected timeout] ++ [Event.sleep 1]
          n_read := d.n_read + 1 }
      refine ⟨h1, [Event.bulk_read 0x82 offset expected timeout, Event.sleep 1] ++ rest,
        h2.trans ?_⟩
      simp
    | failed =>
      refine ⟨fun why x h => ?_, [Event.bulk_read 0x82 offset expected timeout, Event.usb_cleanup],
        ?_⟩
      · cases h
        rfl
      · simp [Res.state]
    | data bytes =>
      obtain ⟨h1, rest, h2⟩ := ih timeout
        { d with
          capt_iobuf := memcpy d.capt_iobuf offset (bytes_at bytes) bytes.length
          trace := d.trace ++ [Event.bulk_read 0x82 offset expected timeout]
          n_read := d.n_read + 1 }
      refine ⟨h1, [Event.bulk_read 0x82 offset expected timeout] ++ rest, h2.trans ?_⟩
      simp

/-- When the guard lets it through, `capt_recv_buf` starts with a read of
`expected` bytes at `offset`, with the timeout 1000. -/
theorem capt_recv_buf_first_read (t : Transport) (fuel offset expected : Nat) (d : Driver)
    (h : offset + expected ≤ 65536) :
    ∃ rest, ((capt_recv_buf t (fuel + 1) offset expected d).state id).trace =
      d.trace ++ Event.bulk_read 0x82 offset expected 1000 :: rest := by
  unfold capt_recv_buf capacity
  rw [if_neg (by omega)]
  unfold capt_recv_buf_loop
  cases hr : t.read_result d.n_read with
  | timed_out =>
    obtain ⟨-, rest, h2⟩ := capt_recv_buf_loop_exit t offset expected fuel (1000 * 2)
      { d with
        trace := d.trace ++ [Event.bulk_read 0x82 offset expected 1000] ++ [Event.sleep 1]
        n_read := d.n_read + 1 }
    refine ⟨Event.sleep 1 :: rest, h2.trans ?_⟩
    simp
  | failed =>
    exact ⟨[Event.usb_cleanup], by simp [Res.state]⟩
  | data bytes =>
    obtain ⟨-, rest, h2⟩ := capt_recv_buf_loop_exit t offset expected fuel 1000
      { d with
        capt_iobuf := memcpy d.capt_iobuf offset (bytes_at bytes) bytes.length
        trace := d.trace ++ [Event.bulk_read 0x82 offset expected 1000]
        n_read := d.n_read + 1 }
    refine ⟨rest, h2.trans ?_⟩
    simp

/-- The reassembly loop passes to its receive call only requests with
offset + expected <= 65535: two receive calls that agree on such requests give
the same loop. -/
theorem reassemble_congr (recv recv2 : Nat → Nat → Driver → Res Driver)
    (h : ∀ o e d, o + e ≤ 65535 → recv o e d = recv2 o e d) :
    ∀ (fuel : Nat) (d : Driver), reassemble recv fuel d = reassemble recv2 fuel d := by
  intro fuel
  induction fuel with
  | zero => intro d; rfl
  | succ f ih =>
    intro d
    have hW := WORD_lt (d.capt_iobuf 2) (d.capt_iobuf 3)
    unfold reassemble
    split
    · rfl
    · split
      · rfl
      · split
        · rename_i hc
          rw [h d.capt_iosize (WORD (d.capt_iobuf 2) (d.capt_iobuf 3) - d.capt_iosize) d
            (by omega)]
          cases recv2 d.capt_iosize (WORD (d.capt_iobuf 2) (d.capt_iobuf 3) - d.capt_iosize) d with
          | ret d1 => exact ih d1
          | exit why e => rfl
          | running e => rfl
        · rfl

/-- The same for the whole transaction: the header request is (0, 6). -/
theorem capt_sendrecv_congr (t : Transport) (recv recv2 : Nat → Nat → Driver → Res Driver)
    (h : ∀ o e d, o + e ≤ 65535 → recv o e d = recv2 o e d)
    (fuel cmd : Nat) (buf : Option (List Nat)) (size : Nat) (r : Reply) (d : Driver) :
    capt_sendrecv t recv fuel cmd buf size r d = capt_sendrecv t recv2 fuel cmd buf size r d := by
  unfold capt_sendrecv
  simp only [h 0 6 _ (by decide), reassemble_congr recv recv2 h]

/-- The function `capt_send` exits for two reasons only. -/
theorem capt_send_exit (t : Transport) (cmd : Nat) (buf : Option (List Nat)) (size : Nat)
    (d : Driver) (why : Fatal) (x : Driver) (h : capt_send t cmd buf size d = Res.exit why x) :
    why = Fatal.output_overflow ∨ why = Fatal.cannot_send := by
  unfold capt_send at h
  cases hc : capt_copy_cmd cmd buf size (reset d) with
  | ret d1 =>
    rw [hc] at h
    simp only at h
    unfold capt_send_buf at h
    obtain ⟨d2, hr, -⟩ :=
      capt_send_buf_loop_frame t (d1.capt_iosize + 1) 0 d1.capt_iosize d1 (Nat.lt_succ_self _)
    rcases hr with hr | hr
    · rw [hr] at h; exact Res.noConfusion h
    · rw [hr] at h
      cases h
      exact Or.inr rfl
  | exit why2 e =>
    rw [hc] at h
    simp only at h
    cases h
    unfold capt_copy_cmd at hc
    split at hc
    · cases hc
      exact Or.inl rfl
    · exact Res.noConfusion hc
  | running e =>
    rw [hc] at h
    exact Res.noConfusion h

/-- With a receive call that never raises the input-overflow alert on a request
with offset + expected <= 65535, the reassembly loop never exits with it. -/
theorem reassemble_no_input_overflow (recv : Nat → Nat → Driver → Res Driver)
    (h : ∀ o e d x, o + e ≤ 65535 → recv o e d ≠ Res.exit Fatal.input_overflow x) :
    ∀ (fuel : Nat) (d x : Driver), reassemble recv fuel d ≠ Res.exit Fatal.input_overflow x := by
  intro fuel
  induction fuel with
  | zero => intro d x hc; exact Res.noConfusion hc
  | succ f ih =>
    intro d x hc
    have hW := WORD_lt (d.capt_iobuf 2) (d.capt_iobuf 3)
    unfold reassemble at hc
    split at hc
    · exact Res.noConfusion hc
    · split at hc
      · exact Res.noConfusion hc
      · split at hc
        · have h1 := h d.capt_iosize (WORD (d.capt_iobuf 2) (d.capt_iobuf 3) - d.capt_iosize) d
          cases hr : recv d.capt_iosize
              (WORD (d.capt_iobuf 2) (d.capt_iobuf 3) - d.capt_iosize) d with
          | ret d1 =>
            rw [hr] at hc
            exact ih d1 x hc
          | exit why e =>
            rw [hr] at hc
            simp only [Res.exit.injEq] at hc
            rw [hc.1, hc.2] at hr
            exact h1 x (by omega) hr
          | running e =>
            rw [hr] at hc
            exact Res.noConfusion hc
        · cases hc

/-- With such a receive call, `capt_sendrecv` never exits with the
input-overflow alert. -/
theorem capt_sendrecv_no_input_overflow (t : Transport)
    (recv : Nat → Nat → Driver → Res Driver)
    (h : ∀ o e d x, o + e ≤ 65535 → recv o e d ≠ Res.exit Fatal.input_overflow x)
    (fuel cmd : Nat) (buf : Option (List Nat)) (size : Nat) (r : Reply) (d x : Driver) :
    capt_sendrecv t recv fuel cmd buf size r d ≠ Res.exit Fatal.input_overflow x := by
  intro hc
  cases hs : capt_send t cmd buf size
      { d with sendrecv_started := true, last_send_status := CUPS_SC_STATUS_NONE } with
  | exit why e =>
    have e1 : capt_sendrecv t recv fuel cmd buf size r d = Res.exit why e := by
      unfold capt_sendrecv; simp only [hs]
    rw [e1] at hc
    simp only [Res.exit.injEq] at hc
    rcases capt_send_exit t cmd buf size _ why e hs with h1 | h1 <;>
      · rw [h1] at hc
        exact absurd hc.1 (by decide)
  | running e =>
    have e1 : capt_sendrecv t recv fuel cmd buf size r d = Res.running e := by
      unfold capt_sendrecv; simp only [hs]
    rw [e1] at hc
    exact Res.noConfusion hc
  | ret d1 =>
    cases hr : recv 0 6 d1 with
    | exit why e =>
      have e1 : capt_sendrecv t recv fuel cmd buf size r d = Res.exit why e := by
        unfold capt_sendrecv; simp only [hs, hr]
      rw [e1] at hc
      simp only [Res.exit.injEq] at hc
      rw [hc.1, hc.2] at hr
      exact h 0 6 d1 x (by decide) hr
    | running e =>
      have e1 : capt_sendrecv t recv fuel cmd buf size r d = Res.running e := by
        unfold capt_sendrecv; simp only [hs, hr]
      rw [e1] at hc
      exact Res.noConfusion hc
    | ret d2 =>
      rw [capt_sendrecv_after_header t recv fuel cmd buf size r d d1 d2 hs hr] at hc
      split at hc
      · simp only [Res.exit.injEq] at hc
        exact absurd hc.1 (by decide)
      · cases hre : reassemble recv fuel d2 with
        | ret d3 =>
          rw [hre] at hc
          exact Res.noConfusion hc
        | exit why e =>
          rw [hre] at hc
          simp only [finish, Res.exit.injEq] at hc
          rw [hc.1, hc.2] at hre
          exact reassemble_no_input_overflow recv h fuel d2 x hre
        | running e =>
          rw [hre] at hc
          exact Res.noConfusion hc

/-- The receive call of the source raises the input-overflow alert only on a
request with offset + expected > 65536. -/
theorem capt_recv_buf_alert (t : Transport) (fuel o e : Nat) (d x : Driver)
    (h : o + e ≤ 65536) : capt_recv_buf t fuel o e d ≠ Res.exit Fatal.input_overflow x := by
  intro hc
  unfold capt_recv_buf capacity at hc
  rw [if_neg (by omega)] at hc
  have := (capt_recv_buf_loop_exit t o e fuel 1000 d).1 _ _ hc
  exact absurd this (by decide)

/-- Claim C18. The call `capt_recv_buf(offset, expected)` with
offset + expected > 65536 exits with the input-overflow alert without any read
(the trace gains `usb_cleanup` only); with offset + expected <= 65536 it never
raises that alert and starts with a read of `expected` bytes at `offset`. The
transaction `capt_sendrecv` makes receive calls only with
offset + expected <= 65535 (it cannot tell apart two receive calls that agree
on such requests), so with the receive call of the source, and with one that
returns, it never exits with the input-overflow alert. -/
theorem receive_overflow_guard (t : Transport) (fuel offset expected : Nat) (d : Driver) :
    (offset + expected > 65536 →
      capt_recv_buf t fuel offset expected d =
        Res.exit Fatal.input_overflow { d with trace := d.trace ++ [Event.usb_cleanup] }) ∧
    (offset + expected ≤ 65536 →
      (∀ x, capt_recv_buf t fuel offset expected d ≠ Res.exit Fatal.input_overflow x) ∧
      ∃ rest, ((capt_recv_buf t (fuel + 1) offset expected d).state id).trace =
        d.trace ++ Event.bulk_read 0x82 offset expected 1000 :: rest) ∧
    (∀ (recv recv2 : Nat → Nat → Driver → Res Driver),
      (∀ o e x, o + e ≤ 65535 → recv o e x = recv2 o e x) →
      ∀ (f cmd : Nat) (buf : Option (List Nat)) (size : Nat) (r : Reply) (d0 : Driver),
        capt_sendrecv t recv f cmd buf size r d0 = capt_sendrecv t recv2 f cmd buf size r d0) ∧
    (∀ (f1 f2 cmd : Nat) (buf : Option (List Nat)) (size : Nat) (r : Reply) (d0 x : Driver),
      capt_sendrecv t (capt_recv_buf t f1) f2 cmd buf size r d0 ≠
        Res.exit Fatal.input_overflow x) ∧
    (∀ (deliver : Nat → Nat → List Nat) (f2 cmd : Nat) (buf : Option (List Nat)) (size : Nat)
        (r : Reply) (d0 x : Driver),
      capt_sendrecv t (recv_returning deliver) f2 cmd buf size r d0 ≠
        Res.exit Fatal.input_overflow x) := by
  refine ⟨fun h => ?_, fun h => ⟨fun x => capt_recv_buf_alert t fuel offset expected d x h,
    capt_recv_buf_first_read t fuel offset expected d h⟩, ?_, ?_, ?_⟩
  · unfold capt_recv_buf capacity
    rw [if_pos h]
  · intro recv recv2 hag f cmd buf size r d0
    exact capt_sendrecv_congr t recv recv2 hag f cmd buf size r d0
  · intro f1 f2 cmd buf size r d0 x
    exact capt_sendrecv_no_input_overflow t (capt_recv_buf t f1)
      (fun o e d1 x1 ho => capt_recv_buf_alert t f1 o e d1 x1 (by omega)) f2 cmd buf size r d0 x
  · intro deliver f2 cmd buf size r d0 x
    refine capt_sendrecv_no_input_overflow t (recv_returning deliver)
      (fun o e d1 x1 ho hc => ?_) f2 cmd buf size r d0 x
    unfold recv_returning capacity at hc
    rw [if_neg (by omega)] at hc
    exact Res.noConfusion hc

/-! ## Cleanup -/

/-- The drain loop changes the trace only, however it ends. -/
theorem drain_loop_frame (bs : Nat) :
    ∀ (fuel bytes : Nat) (d : Driver),
      ((drain_loop fuel bytes bs d).state id).capt_iobuf = d.capt_iobuf ∧
      ((drain_loop fuel bytes bs d).state id).capt_iosize = d.capt_iosize ∧
      ((drain_loop fuel bytes bs d).state id).last_send_status = d.last_send_status ∧
      ((drain_loop fuel bytes bs d).state id).sendrecv_started = d.sendrecv_started ∧
      ((drain_loop fuel bytes bs d).state id).n_write = d.n_write ∧
      ((drain_loop fuel bytes bs d).state id).n_read = d.n_read := by
  intro fuel
  induction fuel with
  | zero => intro bytes d; exact ⟨rfl, rfl, rfl, rfl, rfl, rfl⟩
  | succ f ih =>
    intro bytes d
    unfold drain_loop
    split
    · exact ih (bytes - bs) { d with trace := d.trace ++ [Event.back_channel_read bs] }
    · exact ⟨rfl, rfl, rfl, rfl, rfl, rfl⟩

/-- The drain loop over 64 k bytes in steps of 64 returns after k reads of 64
bytes each, with any budget above k. -/
theorem drain_loop_returns :
    ∀ (k fuel : Nat) (d : Driver), k < fuel →
      drain_loop fuel (64 * k) 64 d =
        Res.ret { d with trace := d.trace ++ List.replicate k (Event.back_channel_read 64) } := by
  intro k
  induction k with
  | zero =>
    intro fuel d h
    obtain ⟨f, rfl⟩ : ∃ f, fuel = f + 1 := ⟨fuel - 1, by omega⟩
    unfold drain_loop
    rw [if_neg (by omega)]
    simp
  | succ k ih =>
    intro fuel d h
    obtain ⟨f, rfl⟩ : ∃ f, fuel = f + 1 := ⟨fuel - 1, by omega⟩
    unfold drain_loop
    rw [if_pos (by omega)]
    rw [show 64 * (k + 1) - 64 = 64 * k by omega, ih f _ (by omega)]
    simp [List.replicate_succ]

/-- The function `capt_cleanup` with no transaction open returns the state it
was called in. -/
theorem capt_cleanup_closed (t : Transport) (d : Driver) (h : d.sendrecv_started = false) :
    capt_cleanup t d = Res.ret d := by
  unfold capt_cleanup
  simp [h]

/-- The function `capt_cleanup` with a transaction open, when it returns, has
cleared the open flag and reset the cursor. -/
theorem capt_cleanup_open (t : Transport) (d d1 : Driver) (h : d.sendrecv_started = true)
    (hr : capt_cleanup t d = Res.ret d1) :
    d1.sendrecv_started = false ∧ d1.capt_iosize = 0 := by
  unfold capt_cleanup at hr
  rw [if_pos h] at hr
  split at hr
  · exact Res.noConfusion hr
  · exact Res.noConfusion hr
  · split at hr
    · exact Res.noConfusion hr
    · exact Res.noConfusion hr
    · cases hr
      exact ⟨rfl, rfl⟩

/-- The function `capt_cleanup` returns when no write fails. -/
theorem capt_cleanup_returns (t : Transport) (hw : ∀ i, 0 ≤ t.write_code i) (d : Driver) :
    ∃ d1, capt_cleanup t d = Res.ret d1 := by
  unfold capt_cleanup
  by_cases hs : d.sendrecv_started = true
  · rw [if_pos hs]
    by_cases hok : d.last_send_status = CUPS_SC_STATUS_OK
    · rw [if_neg (by simp [hok])]
      simp only [hok, if_true]
      rw [show (0x10000 : Nat) = 64 * 1024 by decide, drain_loop_returns 1024 1025 d (by decide)]
      exact ⟨_, rfl⟩
    · rw [if_pos hok]
      unfold capt_send_buf
      obtain ⟨d1, e, -, -, h3, -⟩ :=
        capt_send_buf_loop_returns t hw (d.capt_iosize + 1) 0 d.capt_iosize d (Nat.lt_succ_self _)
      rw [e]
      simp only
      rw [if_neg (by rw [h3]; exact hok)]
      exact ⟨_, rfl⟩
  · rw [if_neg hs]
    exact ⟨_, rfl⟩

/-- Claim C14. With no transaction open `capt_cleanup` returns the state it was
called in: buffer, cursor, both flags and the trace unchanged, so no transport
operation made. With a transaction open, whenever it returns the open flag is
cleared and the cursor is 0, whatever the last send status; and it does return
when no write fails. Hence a second call right after a call that returned
returns the same state again. -/
theorem cleanup_effect (t : Transport) (d : Driver) :
    (d.sendrecv_started = false → capt_cleanup t d = Res.ret d) ∧
    (d.sendrecv_started = true → ∀ d1, capt_cleanup t d = Res.ret d1 →
      d1.sendrecv_started = false ∧ d1.capt_iosize = 0) ∧
    ((∀ i, 0 ≤ t.write_code i) → ∃ d1, capt_cleanup t d = Res.ret d1) ∧
    (∀ d1, capt_cleanup t d = Res.ret d1 → ∀ t2, capt_cleanup t2 d1 = Res.ret d1) := by
  refine ⟨capt_cleanup_closed t d, fun h d1 hr => capt_cleanup_open t d d1 h hr,
    fun hw => capt_cleanup_returns t hw d, fun d1 hr t2 => ?_⟩
  apply capt_cleanup_closed
  by_cases hs : d.sendrecv_started = true
  · exact (capt_cleanup_open t d d1 hs hr).1
  · have hs2 : d.sendrecv_started = false := by simpa using hs
    rw [capt_cleanup_closed t d hs2] at hr
    cases hr
    exact hs2

/-- With a transaction open and the status `CUPS_SC_STATUS_OK`, `capt_cleanup`
makes no write and 1024 back-channel reads of 64 bytes. -/
theorem capt_cleanup_drains (t : Transport) (d : Driver) (hs : d.sendrecv_started = true)
    (hok : d.last_send_status = CUPS_SC_STATUS_OK) :
    capt_cleanup t d =
      Res.ret
        { d with
          trace := d.trace ++ List.replicate 1024 (Event.back_channel_read 64)
          capt_iosize := 0
          sendrecv_started := false } := by
  unfold capt_cleanup
  rw [if_pos hs, if_neg (by simp [hok])]
  dsimp only
  rw [if_pos hok, show (0x10000 : Nat) = 64 * 1024 by decide,
    drain_loop_returns 1024 1025 d (by decide)]

/-- With a transaction open and a status other than `CUPS_SC_STATUS_OK`,
`capt_cleanup` is the flush of the frame buffer followed by the two closing
assignments; the drain loop is not run. -/
theorem capt_cleanup_flushes (t : Transport) (d : Driver) (hs : d.sendrecv_started = true)
    (hok : d.last_send_status ≠ CUPS_SC_STATUS_OK) :
    capt_cleanup t d =
      match capt_send_buf t d with
      | Res.ret d1 => Res.ret { d1 with capt_iosize := 0, sendrecv_started := false }
      | Res.exit why e => Res.exit why e
      | Res.running e => Res.running e := by
  have hf := (capt_send_buf_flags t d).2.1
  unfold capt_cleanup
  rw [if_pos hs, if_pos hok]
  cases hr : capt_send_buf t d with
  | ret d1 =>
    rw [hr] at hf
    simp only
    rw [if_neg (by rw [show d1.last_send_status = d.last_send_status from hf]; exact hok)]
  | exit why e => rfl
  | running e => rfl

/-! ## Invariants of the reachable states -/

/-- The state a `sendrecv` call ends in is the one `capt_sendrecv` ends in. -/
theorem run_sendrecv_state (t : Transport) (recv : Nat → Nat → Driver → Res Driver)
    (fuel cmd : Nat) (buf : Option (List Nat)) (size : Nat) (r : Reply) (d : Driver) :
    ((Call.sendrecv cmd buf size r).run t recv fuel d).state id =
      (capt_sendrecv t recv fuel cmd buf size r d).state Prod.fst := by
  simp only [Call.run]
  cases h : capt_sendrecv t recv fuel cmd buf size r d with
  | ret a => rfl
  | exit why e => rfl
  | running e => rfl

/-- The status at the end of `capt_sendrecv` is `CUPS_SC_STATUS_NONE`, however
it ends. -/
theorem capt_sendrecv_status (t : Transport) (recv : Nat → Nat → Driver → Res Driver)
    (hk : keeps_flags recv) (fuel cmd : Nat) (buf : Option (List Nat)) (size : Nat)
    (r : Reply) (d : Driver) :
    ((capt_sendrecv t recv fuel cmd buf size r d).state Prod.fst).last_send_status =
      CUPS_SC_STATUS_NONE := by
  obtain ⟨h1, h2, h3⟩ := capt_sendrecv_flags t recv hk fuel cmd buf size r d
  cases hr : capt_sendrecv t recv fuel cmd buf size r d with
  | ret a =>
    obtain ⟨d3, out⟩ := a
    exact (h1 d3 out hr).2
  | exit why e => exact (h2 why e hr).2
  | running e => exact (h3 e hr).2

/-- The function `capt_cleanup` leaves the status alone, however it ends. -/
theorem capt_cleanup_status (t : Transport) (d : Driver) :
    ((capt_cleanup t d).state id).last_send_status = d.last_send_status := by
  have hf := (capt_send_buf_flags t d).2.1
  unfold capt_cleanup
  split
  · split
    · rename_i why e heq
      split at heq
      · rw [heq] at hf; exact hf
      · exact Res.noConfusion heq
    · rename_i e heq
      split at heq
      · rw [heq] at hf; exact hf
      · exact Res.noConfusion heq
    · rename_i d1 heq
      have h1 : d1.last_send_status = d.last_send_status := by
        split at heq
        · rw [heq] at hf; exact hf
        · cases heq; rfl
      have hd := (drain_loop_frame 64 1025 0x10000 d1).2.2.1
      split
      · rename_i why e heq2
        split at heq2
        · rw [heq2] at hd; exact hd.trans h1
        · exact Res.noConfusion heq2
      · rename_i e heq2
        split at heq2
        · rw [heq2] at hd; exact hd.trans h1
        · exact Res.noConfusion heq2
      · rename_i d2 heq2
        split at heq2
        · rw [heq2] at hd; exact hd.trans h1
        · cases heq2; exact h1
  · rfl

/-- Every call leaves the status `CUPS_SC_STATUS_NONE` if it finds it so,
however the call ends. -/
theorem run_status (t : Transport) (recv : Nat → Nat → Driver → Res Driver)
    (hk : keeps_flags recv) (c : Call) (fuel : Nat) (d : Driver)
    (h : d.last_send_status = CUPS_SC_STATUS_NONE) :
    ((c.run t recv fuel d).state id).last_send_status = CUPS_SC_STATUS_NONE := by
  cases c with
  | send cmd buf size => exact (capt_send_flags t cmd buf size d).2.trans h
  | sendrecv cmd buf size r =>
    rw [run_sendrecv_state]
    exact capt_sendrecv_status t recv hk fuel cmd buf size r d
  | multi_begin cmd => exact h
  | multi_add cmd buf size => exact (capt_copy_cmd_flags cmd buf size d).2.trans h
  | multi_send => exact (capt_send_buf_flags t (finalize_batch_length d)).2.1.trans h
  | cleanup => exact (capt_cleanup_status t d).trans h

/-- In every reachable state the status is `CUPS_SC_STATUS_NONE`. -/
theorem reachable_status (t : Transport) (recv : Nat → Nat → Driver → Res Driver)
    (hk : keeps_flags recv) (d : Driver) (hr : Reachable t recv d) :
    d.last_send_status = CUPS_SC_STATUS_NONE := by
  induction hr with
  | init => rfl
  | step d0 c fuel _ ih => exact run_status t recv hk c fuel d0 ih

/-- Claim C19. For a receive call that leaves the two flags alone (the one of
the source does), in every state reachable from the initial state by calls of
capt_send, capt_sendrecv, capt_multi_begin, capt_multi_add, capt_multi_send
and capt_cleanup (states in which a call exits or is interrupted included),
`last_send_status` is `CUPS_SC_STATUS_NONE`, so never `CUPS_SC_STATUS_OK`; and
`capt_cleanup` called there with a transaction open is the flush of the frame
buffer followed by the two closing assignments, without the drain loop. -/
theorem status_never_ok (t : Transport) (recv : Nat → Nat → Driver → Res Driver)
    (hk : keeps_flags recv) (d : Driver) (hr : Reachable t recv d) :
    d.last_send_status = CUPS_SC_STATUS_NONE ∧
    d.last_send_status ≠ CUPS_SC_STATUS_OK ∧
    (d.sendrecv_started = true →
      ∀ t2, capt_cleanup t2 d =
        match capt_send_buf t2 d with
        | Res.ret d1 => Res.ret { d1 with capt_iosize := 0, sendrecv_started := false }
        | Res.exit why e => Res.exit why e
        | Res.running e => Res.running e) := by
  have h := reachable_status t recv hk d hr
  have hne : d.last_send_status ≠ CUPS_SC_STATUS_OK := by rw [h]; decide
  exact ⟨h, hne, fun hs t2 => capt_cleanup_flushes t2 d hs hne⟩

/-- Witness for `status_never_ok`: the state in which a transaction is
interrupted while waiting for the reply header has the open flag set and the
status `CUPS_SC_STATUS_NONE`, and `capt_cleanup` there is the flush. -/
theorem status_never_ok_witness :
    interrupted.sendrecv_started = true ∧
    interrupted.last_send_status = CUPS_SC_STATUS_NONE ∧
    capt_cleanup writes_ok interrupted =
      match capt_send_buf writes_ok interrupted with
      | Res.ret d1 => Res.ret { d1 with capt_iosize := 0, sendrecv_started := false }
      | Res.exit why e => Res.exit why e
      | Res.running e => Res.running e := by
  have h := status_never_ok two_timeouts (capt_recv_buf two_timeouts 4)
    (keeps_flags_capt_recv_buf two_timeouts 4) interrupted
    (Reachable.step Driver.init
      (Call.sendrecv 0x1234 none 0 { reply := none, reply_size := none }) 1025 Reachable.init)
  exact ⟨rfl, h.1, h.2.2 rfl writes_ok⟩

/-- The cleanup of the interrupted transaction, evaluated: it returns after one
more bulk transfer (of length 0, from offset 4) and no back-channel read. -/
theorem cleanup_of_interrupted :
    ∃ d1, capt_cleanup writes_ok interrupted = Res.ret d1 ∧
      d1.capt_iosize = 0 ∧ d1.sendrecv_started = false ∧
      d1.trace = interrupted.trace ++ [Event.bulk_write 0x01 4 0 [] 1000] :=
  ⟨_, rfl, rfl, rfl, by decide⟩

/-! ## The transaction with the receive call of the source -/

/-- The function `capt_send` is never still running: its loop has budget
enough. -/
theorem capt_send_not_running (t : Transport) (cmd : Nat) (buf : Option (List Nat)) (size : Nat)
    (d e : Driver) : capt_send t cmd buf size d ≠ Res.running e := by
  intro h
  unfold capt_send at h
  cases hc : capt_copy_cmd cmd buf size (reset d) with
  | ret d1 =>
    rw [hc] at h
    simp only at h
    unfold capt_send_buf at h
    obtain ⟨d2, hr, -⟩ :=
      capt_send_buf_loop_frame t (d1.capt_iosize + 1) 0 d1.capt_iosize d1 (Nat.lt_succ_self _)
    rcases hr with hr | hr <;> rw [hr] at h <;> exact Res.noConfusion h
  | exit why2 e2 =>
    rw [hc] at h
    exact Res.noConfusion h
  | running e2 =>
    unfold capt_copy_cmd at hc
    split at hc <;> exact Res.noConfusion hc

/-- The receive call of the source leaves the cursor alone, however it ends. -/
theorem capt_recv_buf_cursor (t : Transport) (fuel offset expected : Nat) (d : Driver) :
    ((capt_recv_buf t fuel offset expected d).state id).capt_iosize = d.capt_iosize := by
  unfold capt_recv_buf
  split
  · rfl
  · have h := capt_recv_buf_loop_cursor t offset expected fuel 1000 d
    cases hr : capt_recv_buf_loop t offset expected fuel 1000 d with
    | ret d1 => exact absurd hr (capt_recv_buf_loop_no_ret t offset expected fuel 1000 d d1)
    | exit why e => exact h.1 why e hr
    | running e => exact h.2 e hr

/-- With the receive call of the source, `capt_sendrecv` ends in one of three
ways: `capt_send` has exited; or `capt_send` has returned and the header
receive `capt_recv_buf(0, 6)` has exited on a failed read; or `capt_send` has
returned and the header receive is still running. In each case the result is
the one of that call: nothing of `capt_sendrecv` after line 161 is executed. -/
theorem capt_sendrecv_source_outcome (t : Transport) (f1 f2 cmd : Nat)
    (buf : Option (List Nat)) (size : Nat) (r : Reply) (d : Driver) :
    (∃ why e, capt_send t cmd buf size
          { d with sendrecv_started := true, last_send_status := CUPS_SC_STATUS_NONE } =
          Res.exit why e ∧
        capt_sendrecv t (capt_recv_buf t f1) f2 cmd buf size r d = Res.exit why e) ∨
    (∃ d1 e, capt_send t cmd buf size
          { d with sendrecv_started := true, last_send_status := CUPS_SC_STATUS_NONE } =
          Res.ret d1 ∧
        capt_recv_buf t f1 0 6 d1 = Res.exit Fatal.no_reply e ∧
        capt_sendrecv t (capt_recv_buf t f1) f2 cmd buf size r d = Res.exit Fatal.no_reply e) ∨
    (∃ d1 e, capt_send t cmd buf size
          { d with sendrecv_started := true, last_send_status := CUPS_SC_STATUS_NONE } =
          Res.ret d1 ∧
        capt_recv_buf t f1 0 6 d1 = Res.running e ∧
        capt_sendrecv t (capt_recv_buf t f1) f2 cmd buf size r d = Res.running e) := by
  cases hs : capt_send t cmd buf size
      { d with sendrecv_started := true, last_send_status := CUPS_SC_STATUS_NONE } with
  | exit why e =>
    refine Or.inl ⟨why, e, rfl, ?_⟩
    unfold capt_sendrecv; simp only [hs]
  | running e => exact absurd hs (capt_send_not_running t cmd buf size _ e)
  | ret d1 =>
    cases hr : capt_recv_buf t f1 0 6 d1 with
    | ret d2 => exact absurd hr (capt_recv_buf_no_ret t f1 0 6 d1 d2)
    | exit why e =>
      have hw : why = Fatal.no_reply := by
        have h2 := hr
        unfold capt_recv_buf capacity at h2
        rw [if_neg (by decide)] at h2
        exact (capt_recv_buf_loop_exit t 0 6 f1 1000 d1).1 why e h2
      subst hw
      refine Or.inr (Or.inl ⟨d1, e, rfl, hr, ?_⟩)
      unfold capt_sendrecv; simp only [hs, hr]
    | running e =>
      refine Or.inr (Or.inr ⟨d1, e, rfl, hr, ?_⟩)
      unfold capt_sendrecv; simp only [hs, hr]

/-- The cursor in the state `capt_send` ends in, however it ends: 0 when the
command does not fit, and otherwise the size of the command framed. -/
theorem capt_send_state_cursor (t : Transport) (cmd : Nat) (buf : Option (List Nat)) (size : Nat)
    (d : Driver) :
    ((capt_send t cmd buf size d).state id).capt_iosize =
      if 4 + size > capacity then 0
      else (match buf with
        | some _ => size
        | none => 0) + 4 := by
  unfold capt_send capt_copy_cmd
  by_cases h : 4 + size > capacity
  · rw [if_pos (by simp only [reset]; omega), if_pos h]
    rfl
  · rw [if_neg (by simp only [reset]; omega), if_neg h]
    simp only
    have hb := (capt_send_buf_flags t
      { reset d with
        capt_iobuf := poke (poke (poke (poke
          (match buf with
            | some p => memcpy (reset d).capt_iobuf ((reset d).capt_iosize + 4) (bytes_at p) size
            | none => (reset d).capt_iobuf)
          ((reset d).capt_iosize + 0) (LO cmd)) ((reset d).capt_iosize + 1) (HI cmd))
          ((reset d).capt_iosize + 2)
          (LO ((match buf with
            | some _ => size
            | none => 0) + 4)))
          ((reset d).capt_iosize + 3)
          (HI ((match buf with
            | some _ => size
            | none => 0) + 4))
        capt_iosize := (reset d).capt_iosize + ((match buf with
            | some _ => size
            | none => 0) + 4) }).2.2.1
    rw [hb]
    simp only [reset, Nat.zero_add]

/-- The cursor in the state `capt_sendrecv` ends in, with the receive call of
the source and however the call ends: the cursor `capt_send` has left, never
the number of bytes received. -/
theorem capt_sendrecv_source_cursor (t : Transport) (f1 f2 cmd : Nat)
    (buf : Option (List Nat)) (size : Nat) (r : Reply) (d : Driver) :
    ((capt_sendrecv t (capt_recv_buf t f1) f2 cmd buf size r d).state Prod.fst).capt_iosize =
      if 4 + size > capacity then 0
      else (match buf with
        | some _ => size
        | none => 0) + 4 := by
  have hs := capt_send_state_cursor t cmd buf size
    { d with sendrecv_started := true, last_send_status := CUPS_SC_STATUS_NONE }
  rcases capt_sendrecv_source_outcome t f1 f2 cmd buf size r d with
    ⟨why, e, h1, h2⟩ | ⟨d1, e, h1, h2, h3⟩ | ⟨d1, e, h1, h2, h3⟩
  · rw [h2]
    rw [h1] at hs
    exact hs
  · rw [h3]
    rw [h1] at hs
    have hc := capt_recv_buf_cursor t f1 0 6 d1
    rw [h2] at hc
    exact hc.trans hs
  · rw [h3]
    rw [h1] at hs
    have hc := capt_recv_buf_cursor t f1 0 6 d1
    rw [h2] at hc
    exact hc.trans hs

/-- On a transport no read of which fails, the loop of `capt_recv_buf` is still
running after any number of iterations, and it has made one read in each. -/
theorem capt_recv_buf_loop_goes_on (t : Transport)
    (hr : ∀ i, t.read_result i ≠ ReadResult.failed) (offset expected : Nat) :
    ∀ (fuel timeout : Nat) (d : Driver),
      ∃ e, capt_recv_buf_loop t offset expected fuel timeout d = Res.running e ∧
        e.n_read = d.n_read + fuel ∧ e.n_write = d.n_write := by
  intro fuel
  induction fuel with
  | zero => intro timeout d; exact ⟨d, rfl, rfl, rfl⟩
  | succ f ih =>
    intro timeout d
    unfold capt_recv_buf_loop
    cases h : t.read_result d.n_read with
    | timed_out =>
      obtain ⟨e, h1, h2, h3⟩ := ih (timeout * 2)
        { d with
          trace := d.trace ++ [Event.bulk_read 0x82 offset expected timeout] ++ [Event.sleep 1]
          n_read := d.n_read + 1 }
      exact ⟨e, h1, by rw [h2]; simp only; omega, h3⟩
    | failed => exact absurd h (hr d.n_read)
    | data bytes =>
      obtain ⟨e, h1, h2, h3⟩ := ih timeout
        { d with
          capt_iobuf := memcpy d.capt_iobuf offset (bytes_at bytes) bytes.length
          trace := d.trace ++ [Event.bulk_read 0x82 offset expected timeout]
          n_read := d.n_read + 1 }
      exact ⟨e, h1, by rw [h2]; simp only; omega, h3⟩

/-- On a transport that always has data, the loop of `capt_recv_buf` makes the
same read again and again: after `fuel` iterations it is still running and has
added `fuel` reads, all with the same offset, length and timeout, to the
trace. -/
theorem capt_recv_buf_loop_always (bytes : List Nat) (offset expected : Nat) :
    ∀ (fuel timeout : Nat) (d : Driver),
      ∃ e, capt_recv_buf_loop (always bytes) offset expected fuel timeout d = Res.running e ∧
        e.trace = d.trace ++ List.replicate fuel (Event.bulk_read 0x82 offset expected timeout) ∧
        e.n_read = d.n_read + fuel ∧ e.capt_iosize = d.capt_iosize ∧
        e.sendrecv_started = d.sendrecv_started ∧ e.last_send_status = d.last_send_status := by
  intro fuel
  induction fuel with
  | zero => intro timeout d; exact ⟨d, rfl, by simp, rfl, rfl, rfl, rfl⟩
  | succ f ih =>
    intro timeout d
    unfold capt_recv_buf_loop
    obtain ⟨e, h1, h2, h3, h4, h5, h6⟩ := ih timeout
      { d with
        capt_iobuf := memcpy d.capt_iobuf offset (bytes_at bytes) bytes.length
        trace := d.trace ++ [Event.bulk_read 0x82 offset expected timeout]
        n_read := d.n_read + 1 }
    refine ⟨e, h1, ?_, ?_, h4, h5, h6⟩
    · rw [h2]
      simp [List.replicate_succ]
    · rw [h3]
      simp only
      omega

/-- Every read the loop of `capt_recv_buf` adds to the trace is a read of
`expected` bytes at `offset`. -/
theorem capt_recv_buf_loop_trace (t : Transport) (offset expected : Nat) :
    ∀ (fuel timeout : Nat) (d : Driver),
      ∃ rest, ((capt_recv_buf_loop t offset expected fuel timeout d).state id).trace =
          d.trace ++ rest ∧
        ∀ ep o len tmo, Event.bulk_read ep o len tmo ∈ rest → o = offset ∧ len = expected := by
  intro fuel
  induction fuel with
  | zero =>
    intro timeout d
    exact ⟨[], (List.append_nil _).symm, fun ep o len tmo h => absurd h (List.not_mem_nil _)⟩
  | succ f ih =>
    intro timeout d
    unfold capt_recv_buf_loop
    cases hr : t.read_result d.n_read with
    | timed_out =>
      obtain ⟨rest, h1, h2⟩ := ih (timeout * 2)
        { d with
          trace := d.trace ++ [Event.bulk_read 0x82 offset expected timeout] ++ [Event.sleep 1]
          n_read := d.n_read + 1 }
      refine ⟨[Event.bulk_read 0x82 offset expected timeout, Event.sleep 1] ++ rest,
        h1.trans (by simp), fun ep o len tmo h => ?_⟩
      simp only [List.cons_append, List.nil_append, List.mem_cons, Event.bulk_read.injEq,
        reduceCtorEq, false_or] at h
      rcases h with h | h
      · exact ⟨h.2.1, h.2.2.1⟩
      · exact h2 ep o len tmo h
    | failed =>
      refine ⟨[Event.bulk_read 0x82 offset expected timeout, Event.usb_cleanup],
        by simp [Res.state], fun ep o len tmo h => ?_⟩
      simp only [List.mem_cons, Event.bulk_read.injEq, reduceCtorEq, List.mem_singleton,
        or_false, List.not_mem_nil] at h
      exact ⟨h.2.1, h.2.2.1⟩
    | data bytes =>
      obtain ⟨rest, h1, h2⟩ := ih timeout
        { d with
          capt_iobuf := memcpy d.capt_iobuf offset (bytes_at bytes) bytes.length
          trace := d.trace ++ [Event.bulk_read 0x82 offset expected timeout]
          n_read := d.n_read + 1 }
      refine ⟨[Event.bulk_read 0x82 offset expected timeout] ++ rest,
        h1.trans (by simp), fun ep o len tmo h => ?_⟩
      simp only [List.cons_append, List.nil_append, List.mem_cons, Event.bulk_read.injEq] at h
      rcases h with h | h
      · exact ⟨h.2.1, h.2.2.1⟩
      · exact h2 ep o len tmo h

/-- The loop of `capt_send_buf` adds no read to the trace. -/
theorem capt_send_buf_loop_trace (t : Transport) :
    ∀ (fuel iopos iosize : Nat) (d : Driver),
      ∃ rest, ((capt_send_buf_loop t fuel iopos iosize d).state id).trace = d.trace ++ rest ∧
        ∀ ep o len tmo, Event.bulk_read ep o len tmo ∉ rest := by
  intro fuel
  induction fuel with
  | zero =>
    intro iopos iosize d
    exact ⟨[], (List.append_nil _).symm, fun ep o len tmo h => absurd h (List.not_mem_nil _)⟩
  | succ f ih =>
    intro iopos iosize d
    unfold capt_send_buf_loop
    by_cases h0 : iosize = 0
    · rw [if_pos h0]
      exact ⟨[], (List.append_nil _).symm, fun ep o len tmo h => absurd h (List.not_mem_nil _)⟩
    · rw [if_neg h0]
      by_cases hc : t.write_code d.n_write < 0
      · simp only [hc, if_true]
        refine ⟨[Event.bulk_write 0x01 (iopos + if iosize > 4096 then 4096 else iosize)
            (iosize - if iosize > 4096 then 4096 else iosize)
            (slice d.capt_iobuf (iopos + if iosize > 4096 then 4096 else iosize)
              (iosize - if iosize > 4096 then 4096 else iosize)) 1000, Event.usb_cleanup],
          by simp [Res.state], fun ep o len tmo h => ?_⟩
        simp at h
      · simp only [hc, if_false]
        obtain ⟨rest, h1, h2⟩ := ih (iopos + if iosize > 4096 then 4096 else iosize)
          (iosize - if iosize > 4096 then 4096 else iosize)
          { d with
            trace := d.trace ++ [Event.bulk_write 0x01
              (iopos + if iosize > 4096 then 4096 else iosize)
              (iosize - if iosize > 4096 then 4096 else iosize)
              (slice d.capt_iobuf (iopos + if iosize > 4096 then 4096 else iosize)
                (iosize - if iosize > 4096 then 4096 else iosize)) 1000]
            n_write := d.n_write + 1 }
        refine ⟨[Event.bulk_write 0x01 (iopos + if iosize > 4096 then 4096 else iosize)
            (iosize - if iosize > 4096 then 4096 else iosize)
            (slice d.capt_iobuf (iopos + if iosize > 4096 then 4096 else iosize)
              (iosize - if iosize > 4096 then 4096 else iosize)) 1000] ++ rest,
          h1.trans (by simp), fun ep o len tmo h => ?_⟩
        simp only [List.cons_append, List.nil_append, List.mem_cons, reduceCtorEq,
          false_or] at h
        exact h2 ep o len tmo h

/-- The function `capt_copy_cmd` leaves the trace alone, however it ends. -/
theorem capt_copy_cmd_trace (cmd : Nat) (buf : Option (List Nat)) (size : Nat) (d : Driver) :
    ((capt_copy_cmd cmd buf size d).state id).trace = d.trace := by
  unfold capt_copy_cmd
  split <;> rfl

/-- The function `capt_send` adds no read to the trace. -/
theorem capt_send_trace (t : Transport) (cmd : Nat) (buf : Option (List Nat)) (size : Nat)
    (d : Driver) :
    ∃ rest, ((capt_send t cmd buf size d).state id).trace = d.trace ++ rest ∧
      ∀ ep o len tmo, Event.bulk_read ep o len tmo ∉ rest := by
  have hc := capt_copy_cmd_trace cmd buf size (reset d)
  unfold capt_send
  cases hcc : capt_copy_cmd cmd buf size (reset d) with
  | ret d1 =>
    rw [hcc] at hc
    have hc1 : d1.trace = d.trace := hc
    simp only
    unfold capt_send_buf
    obtain ⟨rest, h1, h2⟩ := capt_send_buf_loop_trace t (d1.capt_iosize + 1) 0 d1.capt_iosize d1
    exact ⟨rest, by rw [h1, hc1], h2⟩
  | exit why e =>
    rw [hcc] at hc
    have hc1 : e.trace = d.trace := hc
    exact ⟨[], by simp [Res.state, hc1], fun ep o len tmo h => absurd h (List.not_mem_nil _)⟩
  | running e =>
    rw [hcc] at hc
    have hc1 : e.trace = d.trace := hc
    exact ⟨[], by simp [Res.state, hc1], fun ep o len tmo h => absurd h (List.not_mem_nil _)⟩

/-- With the receive call of the source, every read `capt_sendrecv` adds to the
trace is a read of 6 bytes at offset 0, a read of the reply header. -/
theorem capt_sendrecv_source_trace (t : Transport) (f1 f2 cmd : Nat)
    (buf : Option (List Nat)) (size : Nat) (r : Reply) (d : Driver) :
    ∃ rest, ((capt_sendrecv t (capt_recv_buf t f1) f2 cmd buf size r d).state Prod.fst).trace =
        d.trace ++ rest ∧
      ∀ ep o len tmo, Event.bulk_read ep o len tmo ∈ rest → o = 0 ∧ len = 6 := by
  obtain ⟨r1, hs1, hs2⟩ := capt_send_trace t cmd buf size
    { d with sendrecv_started := true, last_send_status := CUPS_SC_STATUS_NONE }
  have hrecv : ∀ d1 : Driver, ∃ rest, ((capt_recv_buf t f1 0 6 d1).state id).trace =
      d1.trace ++ rest ∧
      ∀ ep o len tmo, Event.bulk_read ep o len tmo ∈ rest → o = 0 ∧ len = 6 := by
    intro d1
    unfold capt_recv_buf capacity
    rw [if_neg (by decide)]
    exact capt_recv_buf_loop_trace t 0 6 f1 1000 d1
  rcases capt_sendrecv_source_outcome t f1 f2 cmd buf size r d with
    ⟨why, e, h1, h2⟩ | ⟨d1, e, h1, h2, h3⟩ | ⟨d1, e, h1, h2, h3⟩
  · rw [h2]
    rw [h1] at hs1
    exact ⟨r1, hs1, fun ep o len tmo h => absurd h (hs2 ep o len tmo)⟩
  · rw [h3]
    rw [h1] at hs1
    obtain ⟨r2, hr1, hr2⟩ := hrecv d1
    rw [h2] at hr1
    refine ⟨r1 ++ r2, ?_, fun ep o len tmo h => ?_⟩
    · have e1 : e.trace = d1.trace ++ r2 := hr1
      have e2 : d1.trace = d.trace ++ r1 := hs1
      show e.trace = d.trace ++ (r1 ++ r2)
      rw [e1, e2, List.append_assoc]
    · rcases List.mem_append.1 h with h | h
      · exact absurd h (hs2 ep o len tmo)
      · exact hr2 ep o len tmo h
  · rw [h3]
    rw [h1] at hs1
    obtain ⟨r2, hr1, hr2⟩ := hrecv d1
    rw [h2] at hr1
    refine ⟨r1 ++ r2, ?_, fun ep o len tmo h => ?_⟩
    · have e1 : e.trace = d1.trace ++ r2 := hr1
      have e2 : d1.trace = d.trace ++ r1 := hs1
      show e.trace = d.trace ++ (r1 ++ r2)
      rw [e1, e2, List.append_assoc]
    · rcases List.mem_append.1 h with h | h
      · exact absurd h (hs2 ep o len tmo)
      · exact hr2 ep o len tmo h

/-- With the receive call of the source, `capt_sendrecv` exits for three reasons
only: the command does not fit, a write has failed, a read has failed. -/
theorem capt_sendrecv_source_exit (t : Transport) (f1 f2 cmd : Nat)
    (buf : Option (List Nat)) (size : Nat) (r : Reply) (d : Driver) (why : Fatal) (x : Driver)
    (h : capt_sendrecv t (capt_recv_buf t f1) f2 cmd buf size r d = Res.exit why x) :
    why = Fatal.output_overflow ∨ why = Fatal.cannot_send ∨ why = Fatal.no_reply := by
  rcases capt_sendrecv_source_outcome t f1 f2 cmd buf size r d with
    ⟨why2, e, h1, h2⟩ | ⟨d1, e, h1, h2, h3⟩ | ⟨d1, e, h1, h2, h3⟩
  · rw [h2] at h
    injection h with hw hx
    subst hw
    rcases capt_send_exit t cmd buf size _ why2 e h1 with h4 | h4
    · exact Or.inl h4
    · exact Or.inr (Or.inl h4)
  · rw [h3] at h
    injection h with hw hx
    exact Or.inr (Or.inr hw.symm)
  · rw [h3] at h
    exact Res.noConfusion h

/-- On a transport whose writes succeed and no read of which fails, with the
receive call of the source, `capt_sendrecv` of a command that fits is still
running, inside the header receive, however large the budget `f1` of that
receive: it has then made `f1` reads. -/
theorem capt_sendrecv_source_waits (t : Transport) (hw : ∀ i, 0 ≤ t.write_code i)
    (hr : ∀ i, t.read_result i ≠ ReadResult.failed) (f1 f2 cmd : Nat)
    (buf : Option (List Nat)) (size : Nat) (r : Reply) (d : Driver) (h : 4 + size ≤ capacity) :
    ∃ e, capt_sendrecv t (capt_recv_buf t f1) f2 cmd buf size r d = Res.running e ∧
      e.n_read = d.n_read + f1 := by
  obtain ⟨d1, hs, -, -, hn⟩ := capt_send_returns t hw cmd buf size
    { d with sendrecv_started := true, last_send_status := CUPS_SC_STATUS_NONE } h
  obtain ⟨e, he, hn2, -⟩ := capt_recv_buf_loop_goes_on t hr 0 6 f1 1000 d1
  have hrecv : capt_recv_buf t f1 0 6 d1 = Res.running e := by
    unfold capt_recv_buf capacity
    rw [if_neg (by decide)]
    exact he
  refine ⟨e, ?_, ?_⟩
  · unfold capt_sendrecv
    simp only [hs, hrecv]
  · rw [hn2, hn]

/-- The mock transport `mock` never fails a read. -/
theorem mock_reads (chunks : List (List Nat)) (i : Nat) :
    (mock chunks).read_result i ≠ ReadResult.failed := by
  unfold mock
  simp only
  split <;> exact fun h => ReadResult.noConfusion h

/-- On a transport that always has data, with the receive call of the source,
`capt_sendrecv` of a command without payload makes its one bulk write and then
the header read of 6 bytes at offset 0 again and again, as often as the budget
`f1` of the receive call allows. -/
theorem capt_sendrecv_always (bytes : List Nat) (f1 f2 cmd : Nat) (r : Reply) (d : Driver) :
    ∃ e, capt_sendrecv (always bytes) (capt_recv_buf (always bytes) f1) f2 cmd none 0 r d =
        Res.running e ∧
      e.trace = d.trace ++ Event.bulk_write 0x01 4 0 [] 1000 ::
        List.replicate f1 (Event.bulk_read 0x82 0 6 1000) ∧
      e.n_read = d.n_read + f1 := by
  have hs : capt_send (always bytes) cmd none 0
      { d with sendrecv_started := true, last_send_status := CUPS_SC_STATUS_NONE } =
      Res.ret
        { d with
          sendrecv_started := true
          last_send_status := CUPS_SC_STATUS_NONE
          capt_iobuf := poke (poke (poke (poke d.capt_iobuf 0 (LO cmd)) 1 (HI cmd)) 2 (LO 4)) 3 (HI 4)
          capt_iosize := 4
          trace := d.trace ++ [Event.bulk_write 0x01 4 0 [] 1000]
          n_write := d.n_write + 1 } := by
    unfold capt_send capt_copy_cmd
    rw [if_neg (by simp only [reset, capacity]; omega)]
    simp only [reset, Nat.zero_add]
    rw [capt_send_buf_short (always bytes) _ (by simp only; omega) (by simp only; omega)
      (le_refl 0)]
  obtain ⟨e, he, ht, hn, -⟩ := capt_recv_buf_loop_always bytes 0 6 f1 1000
    { d with
      sendrecv_started := true
      last_send_status := CUPS_SC_STATUS_NONE
      capt_iobuf := poke (poke (poke (poke d.capt_iobuf 0 (LO cmd)) 1 (HI cmd)) 2 (LO 4)) 3 (HI 4)
      capt_iosize := 4
      trace := d.trace ++ [Event.bulk_write 0x01 4 0 [] 1000]
      n_write := d.n_write + 1 }
  have hrecv : capt_recv_buf (always bytes) f1 0 6
      { d with
        sendrecv_started := true
        last_send_status := CUPS_SC_STATUS_NONE
        capt_iobuf := poke (poke (poke (poke d.capt_iobuf 0 (LO cmd)) 1 (HI cmd)) 2 (LO 4)) 3 (HI 4)
        capt_iosize := 4
        trace := d.trace ++ [Event.bulk_write 0x01 4 0 [] 1000]
        n_write := d.n_write + 1 } = Res.running e := by
    unfold capt_recv_buf capacity
    rw [if_neg (by decide)]
    exact he
  refine ⟨e, ?_, ?_, hn⟩
  · unfold capt_sendrecv
    simp only [hs, hrecv]
  · rw [ht]
    simp

/-! ## Reassembly and reply copy, on the code as it stands -/

/-- Claim C1, the code at the failing input: the transaction
`capt_sendrecv(0x1234, NULL, 0, ..)` from the initial state. Whatever the
transport answers and however long the call runs, it does not return, and the
cursor of the state it ends in is 4, the size of the command framed: it is
never the size T of a reply, which is 6 at least. On the transport `mock_10`,
which delivers the 10-byte reply as the 6-byte header and then the remainder,
the header receive `capt_recv_buf(0, 6)` reads again after the header has
arrived: after four iterations of its loop the call is still running, every
read was a read of 6 bytes at offset 0, and the remainder B2 B3 B4 B5 has been
stored over the first four bytes of the header. -/
theorem capt_sendrecv_never_reassembles (t : Transport) (f1 f2 : Nat) (r : Reply) :
    (∀ x, capt_sendrecv t (capt_recv_buf t f1) f2 0x1234 none 0 r Driver.init ≠ Res.ret x) ∧
    ((capt_sendrecv t (capt_recv_buf t f1) f2 0x1234 none 0 r Driver.init).state
      Prod.fst).capt_iosize = 4 ∧
    (∃ e, capt_sendrecv mock_10 (capt_recv_buf mock_10 4) f2 0x1234 none 0 r Driver.init =
        Res.running e ∧
      e.capt_iosize = 4 ∧
      e.trace =
        [Event.bulk_write 0x01 4 0 [] 1000,
         Event.bulk_read 0x82 0 6 1000,
         Event.bulk_read 0x82 0 6 1000,
         Event.bulk_read 0x82 0 6 1000, Event.sleep 1,
         Event.bulk_read 0x82 0 6 2000, Event.sleep 1] ∧
      slice e.capt_iobuf 0 6 = [0xB2, 0xB3, 0xB4, 0xB5, 0xB0, 0xB1]) := by
  refine ⟨fun x => capt_sendrecv_source_never_returns t f1 f2 0x1234 none 0 r Driver.init x,
    ?_, ⟨_, rfl, rfl, by decide, by decide⟩⟩
  rw [capt_sendrecv_source_cursor]
  decide

/-- Claim C5, the code at the failing input: the end-to-end scenario, the
transaction `capt_sendrecv(0x1234, NULL, 0, reply, &reply_size)` from the
initial state on the transport `mock_10`, which delivers 34 12 0A 00 B0 B1 and
then B2 B3 B4 B5. For every output memory, every reply capacity and every
budget `f1` of the receive call, the call is still running after `f1` reads,
with the cursor at 4: it has handed nothing back, neither the six payload
bytes nor the size 10, as a result that is still running carries no reply. -/
theorem capt_sendrecv_hands_nothing_back (f1 f2 : Nat) (mem : Nat → Nat) (c : Nat) :
    ∃ e, capt_sendrecv mock_10 (capt_recv_buf mock_10 f1) f2 0x1234 none 0
        { reply := some mem, reply_size := some c } Driver.init = Res.running e ∧
      e.n_read = f1 ∧ e.capt_iosize = 4 := by
  obtain ⟨e, h1, h2⟩ := capt_sendrecv_source_waits mock_10 (fun _ => le_refl 0)
    (mock_reads _) f1 f2 0x1234 none 0 { reply := some mem, reply_size := some c } Driver.init
    (by decide)
  have hc := capt_sendrecv_source_cursor mock_10 f1 f2 0x1234 none 0
    { reply := some mem, reply_size := some c } Driver.init
  rw [h1] at hc
  refine ⟨e, h1, ?_, ?_⟩
  · rw [h2]
    exact Nat.zero_add f1
  · exact hc.trans (by decide)

/-! ## Header validation and the transaction flags, on the code as it stands -/

/-- With the receive call of the source, the result of `capt_sendrecv` does not
depend on the budget of the reassembly loop: the loop is never entered. -/
theorem capt_sendrecv_source_budget (t : Transport) (f1 f2 f3 cmd : Nat)
    (buf : Option (List Nat)) (size : Nat) (r : Reply) (d : Driver) :
    capt_sendrecv t (capt_recv_buf t f1) f2 cmd buf size r d =
      capt_sendrecv t (capt_recv_buf t f1) f3 cmd buf size r d := by
  unfold capt_sendrecv
  simp only
  cases capt_send t cmd buf size
      { d with sendrecv_started := true, last_send_status := CUPS_SC_STATUS_NONE } with
  | exit why e => rfl
  | running e => rfl
  | ret d1 =>
    simp only
    cases hr : capt_recv_buf t f1 0 6 d1 with
    | ret d2 => exact absurd hr (capt_recv_buf_no_ret t f1 0 6 d1 d2)
    | exit why e => rfl
    | running e => rfl

/-- Claim C12, the code at the failing input. With the receive call of the
source, for every transport, opcode, payload and state: `capt_sendrecv` never
exits with the bad-reply-header error and never returns, and its result does
not depend on the budget of the reassembly loop, which it never enters. On a
transport that delivers the header 35 12 06 00 00 00 to the opcode 0x1234, a
mismatch, the call does not terminate: for every budget `n` of the header
receive it is still running after `n` reads, and after three iterations the
trace shows the header read made three times, with the mismatching header in
the buffer since the first. -/
theorem capt_sendrecv_never_checks_header (t : Transport) (f1 f2 cmd : Nat)
    (buf : Option (List Nat)) (size : Nat) (r : Reply) (d : Driver) :
    (∀ e, capt_sendrecv t (capt_recv_buf t f1) f2 cmd buf size r d ≠
      Res.exit Fatal.bad_reply_header e) ∧
    (∀ x, capt_sendrecv t (capt_recv_buf t f1) f2 cmd buf size r d ≠ Res.ret x) ∧
    capt_sendrecv t (capt_recv_buf t f1) f2 cmd buf size r d =
      capt_sendrecv t (capt_recv_buf t f1) 0 cmd buf size r d ∧
    (∀ n, ∃ e, capt_sendrecv (mock [reply_wrong_opcode])
        (capt_recv_buf (mock [reply_wrong_opcode]) n) f2 0x1234 none 0 r Driver.init =
        Res.running e ∧ e.n_read = n) ∧
    (∃ e, capt_sendrecv (mock [reply_wrong_opcode])
        (capt_recv_buf (mock [reply_wrong_opcode]) 3) f2 0x1234 none 0 r Driver.init =
        Res.running e ∧
      e.trace =
        [Event.bulk_write 0x01 4 0 [] 1000,
         Event.bulk_read 0x82 0 6 1000,
         Event.bulk_read 0x82 0 6 1000, Event.sleep 1,
         Event.bulk_read 0x82 0 6 2000, Event.sleep 1] ∧
      slice e.capt_iobuf 0 6 = reply_wrong_opcode) := by
  refine ⟨fun e h => ?_, fun x => capt_sendrecv_source_never_returns t f1 f2 cmd buf size r d x,
    ?_, fun n => ?_, ⟨_, rfl, by decide, by decide⟩⟩
  · rcases capt_sendrecv_source_exit t f1 f2 cmd buf size r d _ e h with h1 | h1 | h1 <;>
      exact absurd h1 (by decide)
  · exact capt_sendrecv_source_budget t f1 f2 0 cmd buf size r d
  · obtain ⟨e, h1, h2⟩ := capt_sendrecv_source_waits (mock [reply_wrong_opcode])
      (fun _ => le_refl 0) (mock_reads _) n f2 0x1234 none 0 r Driver.init (by decide)
    exact ⟨e, h1, h2.trans (Nat.zero_add n)⟩

/-- Claim C13, the code at the failing input. With the receive call of the
source, for every transport, opcode, payload and state: `capt_sendrecv` never
returns, and in the state it ends in, exited or still running, the open flag
is set and `last_send_status` is `CUPS_SC_STATUS_NONE`: the closed state is
never reached. On the transport that delivers the complete 6-byte reply
34 12 06 00 00 00 to the opcode 0x1234, the call reads again after the reply
has arrived and is still running, the open flag set, for every budget. -/
theorem capt_sendrecv_never_closes (t : Transport) (f1 f2 cmd : Nat)
    (buf : Option (List Nat)) (size : Nat) (r : Reply) (d : Driver) :
    (∀ x, capt_sendrecv t (capt_recv_buf t f1) f2 cmd buf size r d ≠ Res.ret x) ∧
    ((capt_sendrecv t (capt_recv_buf t f1) f2 cmd buf size r d).state
      Prod.fst).sendrecv_started = true ∧
    ((capt_sendrecv t (capt_recv_buf t f1) f2 cmd buf size r d).state
      Prod.fst).last_send_status = CUPS_SC_STATUS_NONE ∧
    (∀ n, ∃ e, capt_sendrecv (mock [reply_6]) (capt_recv_buf (mock [reply_6]) n) f2 0x1234
        none 0 r Driver.init = Res.running e ∧
      e.n_read = n ∧ e.sendrecv_started = true ∧ e.last_send_status = CUPS_SC_STATUS_NONE) ∧
    (∃ e, capt_sendrecv (mock [reply_6]) (capt_recv_buf (mock [reply_6]) 2) f2 0x1234
        none 0 r Driver.init = Res.running e ∧
      slice e.capt_iobuf 0 6 = reply_6 ∧
      e.trace =
        [Event.bulk_write 0x01 4 0 [] 1000,
         Event.bulk_read 0x82 0 6 1000,
         Event.bulk_read 0x82 0 6 1000, Event.sleep 1]) := by
  have hnr := capt_sendrecv_source_never_returns t f1 f2 cmd buf size r d
  have key : ∀ (t : Transport) (f1 f2 cmd : Nat) (buf : Option (List Nat)) (size : Nat)
      (r : Reply) (d : Driver),
      ((capt_sendrecv t (capt_recv_buf t f1) f2 cmd buf size r d).state
        Prod.fst).sendrecv_started = true ∧
      ((capt_sendrecv t (capt_recv_buf t f1) f2 cmd buf size r d).state
        Prod.fst).last_send_status = CUPS_SC_STATUS_NONE := by
    intro t f1 f2 cmd buf size r d
    obtain ⟨-, h2, h3⟩ := capt_sendrecv_flags t (capt_recv_buf t f1)
      (keeps_flags_capt_recv_buf t f1) f2 cmd buf size r d
    cases hres : capt_sendrecv t (capt_recv_buf t f1) f2 cmd buf size r d with
    | ret x => exact absurd hres (capt_sendrecv_source_never_returns t f1 f2 cmd buf size r d x)
    | exit why e => exact h2 why e hres
    | running e => exact h3 e hres
  refine ⟨hnr, (key t f1 f2 cmd buf size r d).1, (key t f1 f2 cmd buf size r d).2,
    fun n => ?_, ⟨_, rfl, by decide, by decide⟩⟩
  obtain ⟨e, h1, h2⟩ := capt_sendrecv_source_waits (mock [reply_6])
    (fun _ => le_refl 0) (mock_reads _) n f2 0x1234 none 0 r Driver.init (by decide)
  have hk := key (mock [reply_6]) n f2 0x1234 none 0 r Driver.init
  rw [h1] at hk
  exact ⟨e, h1, h2.trans (Nat.zero_add n), hk.1, hk.2⟩

/-! ## Bounded reassembly and waiting for the printer, on the code as it stands -/

/-- Claim C20, the code at the failing input. With the receive call of the
source, for every transport, opcode, payload and state: every read that
`capt_sendrecv` makes is a read of 6 bytes at offset 0, the header read, so no
continuation receive is ever made; and the call neither returns (reply
complete) nor exits with the bad-reply-size error (protocol error). On a
transport that always has data (here the header 34 12 FF FF 00 00 on every
read) the call does not terminate: for every budget `n` it is still running
after one bulk write and `n` header reads. -/
theorem capt_sendrecv_no_continuation (t : Transport) (f1 f2 cmd : Nat)
    (buf : Option (List Nat)) (size : Nat) (r : Reply) (d : Driver) :
    (∃ rest, ((capt_sendrecv t (capt_recv_buf t f1) f2 cmd buf size r d).state Prod.fst).trace =
        d.trace ++ rest ∧
      ∀ ep o len tmo, Event.bulk_read ep o len tmo ∈ rest → o = 0 ∧ len = 6) ∧
    (∀ x, capt_sendrecv t (capt_recv_buf t f1) f2 cmd buf size r d ≠ Res.ret x) ∧
    (∀ e, capt_sendrecv t (capt_recv_buf t f1) f2 cmd buf size r d ≠
      Res.exit Fatal.bad_reply_size e) ∧
    (∀ n, ∃ e, capt_sendrecv (always header_max) (capt_recv_buf (always header_max) n) f2
        0x1234 none 0 r Driver.init = Res.running e ∧
      e.trace = Event.bulk_write 0x01 4 0 [] 1000 ::
        List.replicate n (Event.bulk_read 0x82 0 6 1000) ∧
      e.n_read = n) := by
  refine ⟨capt_sendrecv_source_trace t f1 f2 cmd buf size r d,
    fun x => capt_sendrecv_source_never_returns t f1 f2 cmd buf size r d x,
    fun e h => ?_, fun n => ?_⟩
  · rcases capt_sendrecv_source_exit t f1 f2 cmd buf size r d _ e h with h1 | h1 | h1 <;>
      exact absurd h1 (by decide)
  · obtain ⟨e, h1, h2, h3⟩ := capt_sendrecv_always header_max n f2 0x1234 r Driver.init
    exact ⟨e, h1, h2, h3.trans (Nat.zero_add n)⟩

/-- With the receive call of the source, `capt_get_status` never returns. -/
theorem capt_get_status_source_no_ret (t : Transport) (f1 f2 chk : Nat) (buf : Nat → Nat)
    (w x : Driver × capt_status) :
    capt_get_status t (capt_recv_buf t f1) f2 chk buf w ≠ Res.ret x := by
  intro h
  unfold capt_get_status download_status at h
  cases hs : capt_sendrecv t (capt_recv_buf t f1) f2 chk none 0
      { reply := some buf, reply_size := some 0x10000 } w.1 with
  | ret y => exact capt_sendrecv_source_never_returns t f1 f2 chk none 0 _ w.1 y hs
  | exit why e =>
    rw [hs] at h
    exact Res.noConfusion h
  | running e =>
    rw [hs] at h
    exact Res.noConfusion h

/-- Claim C15, the code at the failing input. For every transport, every state
and all budgets, `capt_wait_ready` does not return: its first status query
never comes back. On a printer that is ready (the reply A0 E0 06 00 00 00,
status word 0, to the status opcode 0xE0A0, on every read), N = 0 in the
claim, the call is still running after one bulk write and `n` header reads,
for every budget `n` of the receive call: it has not completed one status
query, and it has not slept. -/
theorem capt_wait_ready_never_returns (t : Transport) (f1 f2 chk : Nat)
    (busy : capt_status → Bool) (buf : Nat → Nat) (fuel : Nat) (w : Driver × capt_status) :
    (∀ x, capt_wait_ready t f1 f2 chk busy buf fuel w ≠ Res.ret x) ∧
    (∀ n, ∃ e, capt_wait_ready (always reply_ready) n f2 0xE0A0 busy_word buf (fuel + 1)
        (Driver.init, capt_init_status) = Res.running e ∧
      e.trace = Event.bulk_write 0x01 4 0 [] 1000 ::
        List.replicate n (Event.bulk_read 0x82 0 6 1000) ∧
      Event.sleep 1 ∉ e.trace) := by
  constructor
  · intro x h
    cases fuel with
    | zero =>
      unfold capt_wait_ready at h
      exact Res.noConfusion h
    | succ k =>
      unfold capt_wait_ready at h
      cases hs : capt_get_status t (capt_recv_buf t f1) f2 chk buf w with
      | ret y => exact capt_get_status_source_no_ret t f1 f2 chk buf w y hs
      | exit why e =>
        rw [hs] at h
        exact Res.noConfusion h
      | running e =>
        rw [hs] at h
        exact Res.noConfusion h
  · intro n
    obtain ⟨e, h1, h2, -⟩ := capt_sendrecv_always reply_ready n f2 0xE0A0
      { reply := some buf, reply_size := some 0x10000 } Driver.init
    refine ⟨e, ?_, h2, ?_⟩
    · unfold capt_wait_ready capt_get_status download_status
      simp only [h1]
    · rw [h2]
      intro hm
      simp only [Driver.init, List.nil_append, List.mem_cons, reduceCtorEq, false_or] at hm
      exact absurd (List.eq_of_mem_replicate hm) (by simp)

/-! ## The cursor and the guard of the command framer -/

/-- While the sum of the guard stays below 2^w, the arithmetic of `size_t`
plays no part: `capt_copy_cmd_size_t` is `capt_copy_cmd`. -/
theorem capt_copy_cmd_size_t_eq (w cmd : Nat) (buf : Option (List Nat)) (size : Nat) (d : Driver)
    (h : d.capt_iosize + 4 + size < 2 ^ w) :
    capt_copy_cmd_size_t w cmd buf size d = capt_copy_cmd cmd buf size d := by
  unfold capt_copy_cmd_size_t capt_copy_cmd
  rw [Nat.mod_eq_of_lt h]
  cases buf with
  | none =>
    simp only
    rw [Nat.mod_eq_of_lt (show 0 + 4 < 2 ^ w by omega),
      Nat.mod_eq_of_lt (show d.capt_iosize + (0 + 4) < 2 ^ w by omega)]
  | some p =>
    simp only
    rw [Nat.mod_eq_of_lt (show size + 4 < 2 ^ w by omega),
      Nat.mod_eq_of_lt (show d.capt_iosize + (size + 4) < 2 ^ w by omega)]

/-- The state `full` is reached by one call from the initial state, and its
cursor is 65536: the buffer is full, the invariant holds. -/
theorem full_cursor :
    Reachable writes_ok (capt_recv_buf writes_ok 0) full ∧ full.capt_iosize = 65536 := by
  refine ⟨Reachable.step Driver.init (Call.send 0x1234 (some (zeros 65532)) 65532) 0
    Reachable.init, ?_⟩
  have h := capt_send_state_cursor writes_ok 0x1234 (some (zeros 65532)) 65532 Driver.init
  rw [if_neg (by decide)] at h
  exact h

/-- Claim C16, the code at the failing input. The state `full` is reachable and
has the cursor 65536, within the capacity. There the call
`capt_multi_add(0x1234, NULL, SIZE_MAX - 3)` passes the guard of
`capt_copy_cmd`, whose sum 65536 + 4 + (2^w - 4) wraps to 65536, and returns
with the cursor 65540, above the capacity, after storing the four header
bytes 34 12 04 00 at the offsets 65536 .. 65539, past the end of the array;
this for a `size_t` of 64 bits and for one of 32 bits. -/
theorem capt_multi_add_passes_wrapped_guard :
    Reachable writes_ok (capt_recv_buf writes_ok 0) full ∧
    full.capt_iosize ≤ capacity ∧
    (∃ d1, capt_multi_add_size_t 64 0x1234 none (2 ^ 64 - 4) full = Res.ret d1 ∧
      d1.capt_iosize = 65540 ∧ capacity < d1.capt_iosize ∧
      slice d1.capt_iobuf 65536 4 = [0x34, 0x12, 0x04, 0x00]) ∧
    (∃ d1, capt_multi_add_size_t 32 0x1234 none (2 ^ 32 - 4) full = Res.ret d1 ∧
      d1.capt_iosize = 65540 ∧ capacity < d1.capt_iosize ∧
      slice d1.capt_iobuf 65536 4 = [0x34, 0x12, 0x04, 0x00]) := by
  have hc := full_cursor.2
  have key : ∀ w : Nat, 17 ≤ w → ∃ d1,
      capt_multi_add_size_t w 0x1234 none (2 ^ w - 4) full = Res.ret d1 ∧
      d1.capt_iosize = 65540 ∧ capacity < d1.capt_iosize ∧
      slice d1.capt_iobuf 65536 4 = [0x34, 0x12, 0x04, 0x00] := by
    intro w hw
    have hp : 2 ^ 17 ≤ 2 ^ w := Nat.pow_le_pow_right (by decide) hw
    have h17 : (2 : Nat) ^ 17 = 131072 := by decide
    have hg : (full.capt_iosize + 4 + (2 ^ w - 4)) % 2 ^ w = 65536 := by
      rw [hc, show 65536 + 4 + (2 ^ w - 4) = 65536 + 2 ^ w by omega, Nat.add_mod_right,
        Nat.mod_eq_of_lt (by omega)]
    have h4 : (0 + 4) % 2 ^ w = 4 := Nat.mod_eq_of_lt (by omega)
    have hn : (full.capt_iosize + 4) % 2 ^ w = 65540 := by
      rw [hc]
      exact Nat.mod_eq_of_lt (by omega)
    unfold capt_multi_add_size_t capt_copy_cmd_size_t
    rw [hg, if_neg (by decide)]
    simp only [h4, hn]
    refine ⟨_, rfl, rfl, by decide, ?_⟩
    simp only [hc]
    decide
  exact ⟨full_cursor.1, by rw [hc]; decide, key 64 (by decide), key 32 (by decide)⟩

end Capt
